import Mathlib

/-!
The chat orchestration loop of devops-agent.

A shallow embedding of `internal/llm/gemini.go` (`GeminiLLM.Chat`,
`GeminiLLM.handleFunctionCall`, `NewGeminiLLM`), `internal/llm/llm.go`
(`NewLLMProvider`), `internal/tools/tools.go` (`ExecuteToolWithConfirmation`),
the four tools of `internal/tools` and `internal/config/config.go`
(`LoadConfig`).

Conventions of the embedding:

* Go strings are Lean strings (sequences of Unicode scalar values).
* `map[string]interface{}` is `GoMap`: `none` is the nil map, `some kvs` a map
  given by its key/value pairs.
* A Go `error` is a `GoError`: its message and the sentinel it wraps (`%w`).
* Everything the program does to the outside is explicit.  The remote model is
  a script of round-trip outcomes (`RoundTrip`), consumed one per iteration of
  the request loop; the operator console is `Env.stdin`, the outcome of the
  n-th `ReadString`; a tool function receives the number of tool invocations
  made before it, so the same call may answer differently at different times.
  Observable effects are appended to `World.trace`.
* Logger output is not modelled, except that entering `handleFunctionCall`
  is recorded as a `dispatch` event.
* The subordinate shell of the four tools is a `tools.Shell`: what
  `CombinedOutput` returns for a command line in a given tool invocation.
  The embedded prompt file is the argument `promptFile` of the constructors.
* The file system, the YAML decoder and the process environment that
  `LoadConfig` uses are the fields of a `config.Host`.
* Of the JSON text of a request only the names of the members written are
  modelled (`jsonKeys`), following the struct tags.
-/

/-! ## Shared values -/

/-- Dynamic value stored in a Go `interface{}`; containers are kept as their JSON text. -/
inductive Value where
  | null
  | bool (b : Bool)
  | num (n : Int)
  | str (s : String)
  | composite (json : String)
  deriving DecidableEq, Repr

/-- Go `map[string]interface{}`: `none` is the nil map. -/
abbrev GoMap := Option (List (String × Value))

/-- Indexing a Go map: a nil map has no keys. -/
def GoMap.get (m : GoMap) (key : String) : Option Value :=
  match m with
  | none => none
  | some kvs => kvs.lookup key

/-- The three sentinel errors of `internal/llm/llm.go`. -/
inductive Sentinel where
  | ErrLLMAPI
  | ErrInvalidResponse
  | ErrConfiguration
  deriving DecidableEq, Repr

/-- Message of a sentinel error (`errors.New` argument). -/
def Sentinel.text : Sentinel → String
  | .ErrLLMAPI => "LLM API error"
  | .ErrInvalidResponse => "invalid response from LLM API"
  | .ErrConfiguration => "LLM configuration error"

/-- Go `error` value: the text of `Error()` and the sentinel wrapped with `%w`, if any. -/
structure GoError where
  msg : String
  wraps : Option Sentinel
  deriving DecidableEq, Repr

/-- Result of `fmt.Errorf("%w: " + rest, sentinel)`. -/
def GoError.wrap (s : Sentinel) (rest : String) : GoError :=
  ⟨s.text ++ ": " ++ rest, some s⟩

/-! ## Package `tools`: declarations -/

namespace tools

/-- Property of a tool schema (`tools.Property`); `Typ` is the field `Type`. -/
structure Property where
  Typ : String
  Description : String
  Required : Bool
  deriving DecidableEq, Repr

/-- Object schema of a tool (`tools.Schema`); `Properties` is a Go map, listed in iteration
order. -/
structure Schema where
  Typ : String
  Properties : List (String × Property)
  deriving DecidableEq, Repr

/-- Tool declaration (`tools.Tool`). -/
structure Tool where
  Name : String
  Description : String
  Parameters : Schema
  deriving DecidableEq, Repr

/-- Pair returned by a tool function: `(map[string]interface{}, error)`. -/
structure ToolResult where
  result : GoMap
  err : Option GoError
  deriving DecidableEq, Repr

/-- Tool implementation (`tools.ToolFunction`), given the number of tool invocations made
before this one. -/
abbrev ToolFunction := Nat → GoMap → ToolResult

/-- Pair returned by `bufio.Reader.ReadString`: the data read and the error, if any. -/
structure ReadResult where
  data : String
  err : Option GoError
  deriving DecidableEq, Repr

end tools

/-! ## Package `llm`: wire types -/

namespace llm

/-- Role and text of a caller message (`llm.Message`). -/
structure Message where
  Role : String
  Content : String
  deriving DecidableEq, Repr

/-- Function call requested by the model. -/
structure FunctionCall where
  Name : String
  Args : GoMap
  deriving DecidableEq, Repr

/-- Function response fed back to the model. -/
structure FunctionResponse where
  Name : String
  Response : GoMap
  deriving DecidableEq, Repr

/-- One part of a content; the two pointer fields are `none` when nil. -/
structure Part where
  Text : String
  FunctionCall : Option FunctionCall
  FunctionResponse : Option FunctionResponse
  deriving DecidableEq, Repr

/-- One turn of the conversation. -/
structure Content where
  Role : String
  Parts : List Part
  deriving DecidableEq, Repr

/-- Property of a function declaration schema. -/
structure Property where
  Typ : String
  Description : String
  deriving DecidableEq, Repr

/-- Parameter schema of a function declaration. -/
structure Schema where
  Typ : String
  Properties : List (String × Property)
  Required : List String
  deriving DecidableEq, Repr

/-- Function declaration sent to the model. -/
structure FunctionDeclaration where
  Name : String
  Description : String
  Parameters : Schema
  deriving DecidableEq, Repr

/-- Tool entry of a request. -/
structure Tool where
  FunctionDeclarations : List FunctionDeclaration
  deriving DecidableEq, Repr

/-- Safety setting of a request. -/
structure SafetyRating where
  Category : String
  Threshold : String
  deriving DecidableEq, Repr

/-- Generation settings; the two float fields only ever hold the literal 0 and are kept as
integers. -/
structure GenerationConfig where
  Temperature : Int
  TopP : Int
  TopK : Int
  CandidateCount : Int
  MaxOutputTokens : Int
  StopSequences : List String
  deriving DecidableEq, Repr

/-- Body of an outbound request. -/
structure GeminiRequest where
  Contents : List Content
  Tools : List Tool
  SafetyRatings : List SafetyRating
  GenerationConfig : GenerationConfig
  deriving DecidableEq, Repr

/-- One candidate of a response. -/
structure Candidate where
  Content : Content
  FinishReason : String
  deriving DecidableEq, Repr

/-- Parsed response body. -/
structure GeminiResponse where
  Candidates : List Candidate
  deriving DecidableEq, Repr

/-- Receiver of `Chat` (the logger is not modelled). -/
structure GeminiLLM where
  apiKey : String
  model : String
  endpoint : String
  conversationHistory : List Content
  deriving DecidableEq, Repr

end llm

/-! ## Observable effects and the environment -/

/-- Effects visible outside the process, in the order they happen. -/
inductive Event where
  | request (url : String) (payload : llm.GeminiRequest)
  | emit (text : String)
  | dispatch (name : String) (args : GoMap)
  | prompt (name : String) (args : GoMap)
  | invoke (name : String) (args : GoMap)
  deriving DecidableEq, Repr

/-- Process-wide state outside the session: the effect trace, the number of confirmation
reads made and the number of tool invocations made. -/
structure World where
  trace : List Event
  reads : Nat
  invocations : Nat
  deriving DecidableEq, Repr

/-- Record an effect. -/
def World.log (w : World) (e : Event) : World :=
  { w with trace := w.trace ++ [e] }

/-- Package-level variables of `tools` and the collaborators a run talks to.
`unicodeLower` is the case table of Go's `unicode.ToLower` outside ASCII. -/
structure Env where
  UnsafeMode : Bool
  Tools : List tools.Tool
  AvailableTools : List (String × tools.ToolFunction)
  stdin : Nat → tools.ReadResult
  unicodeLower : Char → Char

/-! ## Go `strings` helpers used by the confirmation gate -/

/-- Go `unicode.IsSpace`. -/
def isSpace (c : Char) : Bool :=
  let n := c.toNat
  n = 0x09 || n = 0x0A || n = 0x0B || n = 0x0C || n = 0x0D || n = 0x20 || n = 0x85 || n = 0xA0
    || n = 0x1680 || (0x2000 ≤ n && n ≤ 0x200A) || n = 0x2028 || n = 0x2029 || n = 0x202F
    || n = 0x205F || n = 0x3000

/-- Go `strings.TrimSpace`: drop leading and trailing white space. -/
def TrimSpace (s : String) : String :=
  String.mk ((s.data.dropWhile isSpace).reverse.dropWhile isSpace).reverse

/-- Go `unicode.ToLower`: ASCII letters by arithmetic, other runes by the case table. -/
def lowerRune (env : Env) (c : Char) : Char :=
  if c.toNat ≤ 0x7F then
    if 'A'.toNat ≤ c.toNat ∧ c.toNat ≤ 'Z'.toNat then Char.ofNat (c.toNat + 32) else c
  else env.unicodeLower c

/-- Go `strings.ToLower`. -/
def ToLower (env : Env) (s : String) : String :=
  String.mk (s.data.map (lowerRune env))

/-! ## Package `tools`: the confirmation gate -/

namespace tools

/-- Call `toolFunc(args)`: the invocation is recorded and counted. -/
def invokeTool (w : World) (name : String) (toolFunc : ToolFunction) (args : GoMap) :
    World × ToolResult :=
  ({ w.log (.invoke name args) with invocations := w.invocations + 1 }, toolFunc w.invocations args)

/-- Payload returned when the operator declines. -/
def cancelledResult : GoMap :=
  some [("result", .str "Tool execution cancelled by user.")]

/-- Embedding of `ExecuteToolWithConfirmation` (tools.go). -/
def ExecuteToolWithConfirmation (env : Env) (w : World) (name : String) (toolFunc : ToolFunction)
    (args : GoMap) : World × ToolResult :=
  if env.UnsafeMode then
    invokeTool w name toolFunc args
  else
    let w1 := w.log (.prompt name args)
    let rd := env.stdin w1.reads
    let w2 := { w1 with reads := w1.reads + 1 }
    match rd.err with
    | some e => (w2, ⟨none, some ⟨"failed to read confirmation: " ++ e.msg, none⟩⟩)
    | none =>
      let response := ToLower env (TrimSpace rd.data)
      if response ≠ "y" ∧ response ≠ "yes" then
        (w2, ⟨cancelledResult, none⟩)
      else
        invokeTool w2 name toolFunc args

end tools

/-! ## Package `llm`: the orchestration loop -/

namespace llm

/-- Session state during a run: the receiver and the world around it. -/
structure State where
  g : GeminiLLM
  w : World
  deriving DecidableEq, Repr

/-- Go `g.conversationHistory = append(g.conversationHistory, c)`. -/
def State.append (st : State) (c : Content) : State :=
  { st with g := { st.g with conversationHistory := st.g.conversationHistory ++ [c] } }

/-- Record an effect. -/
def State.log (st : State) (e : Event) : State :=
  { st with w := st.w.log e }

/-- How a loop body ended: it fell through to the next iteration, or `Chat` returned. -/
inductive Flow where
  | next
  | returned (err : Option GoError)
  deriving DecidableEq, Repr

/-- How a run of `Chat` against a finite script ended: `Chat` returned, or it is at the top
of the request loop, about to make a round trip the script does not cover. -/
inductive Outcome where
  | returned (err : Option GoError)
  | awaitingReply
  deriving DecidableEq, Repr

/-- Outcome of one pass through the request/response code of the loop. -/
inductive RoundTrip where
  | marshalError (msg : String)
  | newRequestError (msg : String)
  | sendError (msg : String)
  | readError (msg : String)
  | response (StatusCode : Int) (body : String) (parsed : Except String GeminiResponse)

/-- Function-response message appended by `handleFunctionCall`. -/
def functionResponseMessage (name : String) (response : GoMap) : Content :=
  ⟨"model", [⟨"", none, some ⟨name, response⟩⟩]⟩

/-- Embedding of `GeminiLLM.handleFunctionCall` (gemini.go). -/
def handleFunctionCall (env : Env) (st : State) (fc : FunctionCall) : State × Option GoError :=
  let st0 := st.log (.dispatch fc.Name fc.Args)
  match env.AvailableTools.lookup fc.Name with
  | none =>
    (st0.append (functionResponseMessage fc.Name
        (some [("error", .str ("Tool not found: " ++ fc.Name))])),
      some (GoError.wrap .ErrInvalidResponse ("tool " ++ fc.Name ++ " not found")))
  | some toolFunc =>
    let r := tools.ExecuteToolWithConfirmation env st0.w fc.Name toolFunc fc.Args
    let st1 : State := { st0 with w := r.1 }
    match r.2.err with
    | some err =>
      (st1.append (functionResponseMessage fc.Name
          (some [("error", .str ("Error executing tool " ++ fc.Name ++ ": " ++ err.msg))])),
        some err)
    | none => (st1.append (functionResponseMessage fc.Name r.2.result), none)

/-- Placeholder turn appended for an empty part. -/
def placeholderMessage : Content :=
  ⟨"model", [⟨"I received an unexpected response. Let's try again.", none, none⟩]⟩

/-- The loop over the parts of a candidate (gemini.go, `for _, responsePart := range ...`). -/
def processParts (env : Env) : State → List Part → State × Flow
  | st, [] => (st, .next)
  | st, responsePart :: rest =>
    if responsePart.Text ≠ "" then
      processParts env (st.log (.emit responsePart.Text)) rest
    else
      match responsePart.FunctionCall with
      | some fc => processParts env (handleFunctionCall env st fc).1 rest
      | none => (st.append placeholderMessage, .returned none)

/-- The `switch candidate.FinishReason`: `true` for `continue`, `false` for `return nil`. -/
def finishContinues (finishReason : String) : Bool :=
  match finishReason with
  | "STOP" => true
  | "MAX_TOKENS" => false
  | "SAFETY" => false
  | "RECITATION" => false
  | "OTHER" => false
  | _ => false

/-- The model turn appended for a candidate: its content with the role set to `model`. -/
def modelResponse (candidate : Candidate) : Content :=
  { candidate.Content with Role := "model" }

/-- The loop over the candidates of a response (gemini.go, `for _, candidate := range ...`). -/
def processCandidates (env : Env) : State → List Candidate → State × Flow
  | st, [] => (st, .next)
  | st, candidate :: rest =>
    if candidate.Content.Parts.length = 0 then
      processCandidates env st rest
    else
      let st1 := st.append (modelResponse candidate)
      match processParts env st1 candidate.Content.Parts with
      | (st2, .returned e) => (st2, .returned e)
      | (st2, .next) =>
        if finishContinues candidate.FinishReason then processCandidates env st2 rest
        else (st2, .returned none)

/-- Required property names of a tool, in map iteration order. -/
def requiredProps (props : List (String × tools.Property)) : List String :=
  props.foldl (fun acc np => if np.2.Required then acc ++ [np.1] else acc) []

/-- Conversion of one `tools.Tool` into a function declaration. -/
def toFunctionDeclaration (tool : tools.Tool) : FunctionDeclaration :=
  { Name := tool.Name
    Description := tool.Description
    Parameters :=
      { Typ := "object"
        Properties := tool.Parameters.Properties.foldl
          (fun acc np => acc ++ [(np.1, ⟨np.2.Typ, np.2.Description⟩)]) []
        Required := requiredProps tool.Parameters.Properties } }

/-- Conversion of `tools.Tools` into the `tools` field of a request. -/
def geminiTools (ts : List tools.Tool) : List Tool :=
  if ts.length > 0 then
    [⟨ts.foldl (fun acc tool => acc ++ [toFunctionDeclaration tool]) []⟩]
  else []

/-- Request body built at the top of the loop. -/
def requestPayload (history : List Content) (gts : List Tool) : GeminiRequest :=
  { Contents := history
    Tools := gts
    SafetyRatings :=
      [⟨"HARM_CATEGORY_HARASSMENT", "BLOCK_MEDIUM_AND_ABOVE"⟩,
       ⟨"HARM_CATEGORY_HATE_SPEECH", "BLOCK_MEDIUM_AND_ABOVE"⟩,
       ⟨"HARM_CATEGORY_SEXUALLY_EXPLICIT", "BLOCK_MEDIUM_AND_ABOVE"⟩,
       ⟨"HARM_CATEGORY_DANGEROUS_CONTENT", "BLOCK_MEDIUM_AND_ABOVE"⟩]
    GenerationConfig := ⟨0, 0, 0, 0, 0, []⟩ }

/-- Record the request sent in this iteration. -/
def sendRequest (url : String) (gts : List Tool) (st : State) : State :=
  st.log (.request url (requestPayload st.g.conversationHistory gts))

/-- The request loop of `Chat` (`for { ... }`), one iteration per scripted round trip. -/
def chatLoop (env : Env) (url : String) (gts : List Tool) :
    State → List RoundTrip → State × Outcome
  | st, [] => (st, .awaitingReply)
  | st, rt :: script =>
    match rt with
    | .marshalError m =>
      (st, .returned (some (GoError.wrap .ErrLLMAPI ("failed to marshal request: " ++ m))))
    | .newRequestError m =>
      (st, .returned (some (GoError.wrap .ErrLLMAPI ("failed to create request: " ++ m))))
    | .sendError m =>
      (sendRequest url gts st,
        .returned (some (GoError.wrap .ErrLLMAPI ("failed to send request: " ++ m))))
    | .readError m =>
      (sendRequest url gts st,
        .returned (some (GoError.wrap .ErrLLMAPI ("failed to read response: " ++ m))))
    | .response status body parsed =>
      let st1 := sendRequest url gts st
      if status ≠ 200 then
        (st1, .returned (some (GoError.wrap .ErrLLMAPI
          ("API returned status " ++ toString status ++ ": " ++ body))))
      else
        match parsed with
        | .error m =>
          (st1, .returned (some (GoError.wrap .ErrInvalidResponse
            ("failed to unmarshal response: " ++ m))))
        | .ok geminiResp =>
          if geminiResp.Candidates.length = 0 then
            (st1, .returned none)
          else
            match processCandidates env st1 geminiResp.Candidates with
            | (st2, .returned e) => (st2, .returned e)
            | (st2, .next) => chatLoop env url gts st2 script

/-- Content appended for one caller message: role `system` is sent as `model`. -/
def messageContent (msg : Message) : Content :=
  ⟨if msg.Role = "system" then "model" else msg.Role, [⟨msg.Content, none, none⟩]⟩

/-- The request URL of `Chat`. -/
def chatURL (g : GeminiLLM) : String :=
  g.endpoint ++ "/models/" ++ g.model ++ ":generateContent?key=" ++ g.apiKey

/-- Embedding of `GeminiLLM.Chat` (gemini.go) against a script of round trips. -/
def Chat (env : Env) (st : State) (messages : List Message) (script : List RoundTrip) :
    State × Outcome :=
  let st1 := messages.foldl (fun s msg => s.append (messageContent msg)) st
  chatLoop env (chatURL st.g) (geminiTools env.Tools) st1 script

/-! ## Vocabulary of the specification -/

/-- A part with neither text nor function call. -/
def Part.isEmpty (p : Part) : Bool :=
  decide (p.Text = "") && p.FunctionCall.isNone

/-- The function call of a function-call part: the text is empty and a call is present. -/
def Part.call (p : Part) : Option llm.FunctionCall :=
  if p.Text = "" then p.FunctionCall else none

/-- The function calls of the function-call parts, in order. -/
def dispatchedCalls (ps : List Part) : List FunctionCall :=
  ps.filterMap Part.call

/-- The parts before the first empty part: the ones the loop gets to handle. -/
def handledParts (ps : List Part) : List Part :=
  ps.takeWhile (fun p => !p.isEmpty)

/-- What handling a part shows outside: a text is emitted, a call is dispatched. -/
def Part.effect (p : Part) : List Event :=
  if p.Text ≠ "" then [.emit p.Text]
  else
    match p.FunctionCall with
    | some fc => [.dispatch fc.Name fc.Args]
    | none => []

/-- Message `m` is a function response carrying the name of the call `fc`. -/
def IsFunctionResponseFor (fc : FunctionCall) (m : Content) : Prop :=
  ∃ payload, m = functionResponseMessage fc.Name payload

/-- A turn block: a model turn, then one function response per function call handled in it,
in call order, then the placeholder if the turn has an empty part. -/
def IsTurnBlock (blk : List Content) : Prop :=
  ∃ (turn : Content) (rs : List Content),
    turn.Role = "model" ∧
    List.Forall₂ IsFunctionResponseFor (dispatchedCalls (handledParts turn.Parts)) rs ∧
    blk = turn :: rs ++ (if turn.Parts.any Part.isEmpty then [placeholderMessage] else [])

/-- A history that extends `h0` by complete turn blocks. -/
def Settled (h0 h : List Content) : Prop :=
  ∃ blocks : List (List Content), h = h0 ++ blocks.flatten ∧ ∀ blk ∈ blocks, IsTurnBlock blk

end llm

/-- The emit and dispatch events of a trace, in order. -/
def partEvents (tr : List Event) : List Event :=
  tr.filter (fun e => match e with
    | .emit _ => true
    | .dispatch _ _ => true
    | _ => false)

/-- The histories carried by the requests of a trace, in order. -/
def requestsOf (tr : List Event) : List (List llm.Content) :=
  tr.filterMap (fun e => match e with
    | .request _ payload => some payload.Contents
    | _ => none)

/-- An event raised by the confirmation gate: a prompt or a tool invocation. -/
def Event.isGateEvent : Event → Bool
  | .prompt _ _ => true
  | .invoke _ _ => true
  | _ => false

/-! ## Package `tools`: the four tools and the registry -/

namespace tools

/-- Go `DataTypeString`. -/
def DataTypeString : String := "string"

/-- Go `DataTypeInteger`. -/
def DataTypeInteger : String := "integer"

/-- Go `DataTypeBoolean`. -/
def DataTypeBoolean : String := "boolean"

/-- Go `DataTypeObject`. -/
def DataTypeObject : String := "object"

/-- Declaration of the tool `bash` (bash.go). -/
def BashDeclaration : Tool :=
  { Name := "bash"
    Description := "Execute a bash command and return the result"
    Parameters :=
      { Typ := DataTypeObject
        Properties :=
          [("command", ⟨DataTypeString, "The bash command to execute", true⟩)] } }

/-- Declaration of the tool `kubectl` (kubectl.go). -/
def KubectlDeclaration : Tool :=
  { Name := "kubectl"
    Description := "Execute a kubectl command and return the result"
    Parameters :=
      { Typ := DataTypeObject
        Properties :=
          [("command", ⟨DataTypeString,
              "The kubectl command to execute (without the 'kubectl' prefix)", true⟩),
           ("context", ⟨DataTypeString, "The Kubernetes context to use (optional)", false⟩),
           ("namespace", ⟨DataTypeString, "The Kubernetes namespace to use (optional)", false⟩),
           ("output", ⟨DataTypeString,
              "The output format (e.g., json, yaml, wide) (optional)", false⟩)] } }

/-- Declaration of the tool `helm` (helm.go). -/
def HelmDeclaration : Tool :=
  { Name := "helm"
    Description := "Execute a helm command and return the result"
    Parameters :=
      { Typ := DataTypeObject
        Properties :=
          [("command", ⟨DataTypeString,
              "The helm command to execute (without the 'helm' prefix)", true⟩),
           ("kubecontext", ⟨DataTypeString,
              "The Kubernetes context to use for Helm (optional)", false⟩),
           ("namespace", ⟨DataTypeString,
              "The Kubernetes namespace to use for Helm (optional)", false⟩),
           ("output", ⟨DataTypeString,
              "The output format (e.g., json, yaml, table) (optional)", false⟩)] } }

/-- Declaration of the tool `az` (az.go). -/
def AzDeclaration : Tool :=
  { Name := "az"
    Description := "Execute an Azure CLI command and return the result"
    Parameters :=
      { Typ := DataTypeObject
        Properties :=
          [("command", ⟨DataTypeString,
              "The Azure CLI command to execute (without the 'az' prefix)", true⟩),
           ("subscription", ⟨DataTypeString,
              "The Azure subscription ID or name to use (optional)", false⟩),
           ("resource_group", ⟨DataTypeString,
              "The Azure resource group to use (optional)", false⟩),
           ("output", ⟨DataTypeString,
              "The output format (e.g., json, yaml, table, tsv) (optional)", false⟩)] } }

/-- Go `tools.Tools`, the declarations sent to the model. -/
def Tools : List Tool :=
  [BashDeclaration, KubectlDeclaration, HelmDeclaration, AzDeclaration]

/-- The error of `cmd.CombinedOutput()` when it is not nil: an `*exec.ExitError`, with the
value of its `ExitCode()`, or any other error (the process was not started). -/
inductive RunError where
  | exitError (code : Int)
  | other (msg : String)
  deriving DecidableEq, Repr

/-- Pair returned by `cmd.CombinedOutput()`: the combined output and the error, if any. -/
structure RunResult where
  output : String
  err : Option RunError
  deriving DecidableEq, Repr

/-- The subordinate shell: what `exec.Command("bash", "-c", line).CombinedOutput()` returns
in the tool invocation with the given number. -/
abbrev Shell := Nat → String → RunResult

/-- Go type assertion `args[key].(string)`: the string, when the key holds one. -/
def stringArg (args : GoMap) (key : String) : Option String :=
  match GoMap.get args key with
  | some (.str s) => some s
  | _ => none

/-- Go `cmd += fmt.Sprintf(flag + "%s", v)` under `if v, ok := args[key].(string); ok && v != ""`. -/
def addOption (cmd : String) (args : GoMap) (key flag : String) : String :=
  match stringArg args key with
  | some v => if v ≠ "" then cmd ++ flag ++ v else cmd
  | none => cmd

/-- The result map of a finished command. -/
def outputResult (output : String) (exitCode : Int) : GoMap :=
  some [("output", .str output), ("exit_code", .num exitCode)]

/-- Embedding of `ExecuteBash` (bash.go). -/
def ExecuteBash (shell : Shell) : ToolFunction := fun n args =>
  match stringArg args "command" with
  | none => ⟨none, some ⟨"missing or invalid 'command' argument", none⟩⟩
  | some command =>
    let r := shell n command
    match r.err with
    | none => ⟨outputResult r.output 0, none⟩
    | some (.exitError code) => ⟨outputResult r.output code, none⟩
    | some (.other msg) => ⟨none, some ⟨"failed to execute command: " ++ msg, none⟩⟩

/-- The command line built by `ExecuteKubectl`. -/
def kubectlCmd (args : GoMap) (command : String) : String :=
  let c0 := "kubectl"
  let c1 := addOption c0 args "context" " --context="
  let c2 := addOption c1 args "namespace" " --namespace="
  let c3 := addOption c2 args "output" " --output="
  c3 ++ " " ++ command

/-- Embedding of `ExecuteKubectl` (kubectl.go). -/
def ExecuteKubectl (shell : Shell) : ToolFunction := fun n args =>
  match stringArg args "command" with
  | none => ⟨none, some ⟨"missing or invalid 'command' argument", none⟩⟩
  | some command =>
    let r := shell n (kubectlCmd args command)
    match r.err with
    | none => ⟨outputResult r.output 0, none⟩
    | some (.exitError code) => ⟨outputResult r.output code, none⟩
    | some (.other msg) => ⟨none, some ⟨"failed to execute kubectl command: " ++ msg, none⟩⟩

/-- The command line built by `ExecuteHelm`. -/
def helmCmd (args : GoMap) (command : String) : String :=
  let c0 := "helm"
  let c1 := addOption c0 args "kubecontext" " --kube-context="
  let c2 := addOption c1 args "namespace" " --namespace="
  let c3 := addOption c2 args "output" " --output="
  c3 ++ " " ++ command

/-- Embedding of `ExecuteHelm` (helm.go). -/
def ExecuteHelm (shell : Shell) : ToolFunction := fun n args =>
  match stringArg args "command" with
  | none => ⟨none, some ⟨"missing or invalid 'command' argument", none⟩⟩
  | some command =>
    let r := shell n (helmCmd args command)
    match r.err with
    | none => ⟨outputResult r.output 0, none⟩
    | some (.exitError code) => ⟨outputResult r.output code, none⟩
    | some (.other msg) =>
      ⟨outputResult r.output (-1),
        some ⟨"failed to execute helm command: " ++ msg ++ ". Output: " ++ r.output, none⟩⟩

/-- The command line built by `ExecuteAz`. -/
def azCmd (args : GoMap) (command : String) : String :=
  let c0 := "az"
  let c1 := addOption c0 args "subscription" " --subscription="
  let c2 := addOption c1 args "resource_group" " --resource-group="
  let c3 := addOption c2 args "output" " --output="
  c3 ++ " " ++ command

/-- Embedding of `ExecuteAz` (az.go). -/
def ExecuteAz (shell : Shell) : ToolFunction := fun n args =>
  match stringArg args "command" with
  | none => ⟨none, some ⟨"missing or invalid 'command' argument", none⟩⟩
  | some command =>
    let r := shell n (azCmd args command)
    match r.err with
    | none => ⟨outputResult r.output 0, none⟩
    | some (.exitError code) => ⟨outputResult r.output code, none⟩
    | some (.other msg) =>
      ⟨outputResult r.output (-1),
        some ⟨"failed to execute az command: " ++ msg ++ ". Output: " ++ r.output, none⟩⟩

/-- Go `tools.AvailableTools`, the registry of tool functions. -/
def AvailableTools (shell : Shell) : List (String × ToolFunction) :=
  [("bash", ExecuteBash shell), ("kubectl", ExecuteKubectl shell),
   ("helm", ExecuteHelm shell), ("az", ExecuteAz shell)]

end tools

/-! ## Package `llm`: construction of a session -/

namespace llm

/-- Configuration of a provider (`llm.LLMConfig`). -/
structure LLMConfig where
  Provider : String
  APIKey : String
  Model : String
  Endpoint : String
  deriving DecidableEq, Repr

/-- Go `GeminiProvider`. -/
def GeminiProvider : String := "gemini"

/-- Embedding of `resources.GetSystemPrompt`; the argument is what reading the embedded file
`prompt.txt` gives. -/
def GetSystemPrompt (promptFile : Except GoError String) : String × Option GoError :=
  match promptFile with
  | .error err => ("", some err)
  | .ok content => (content, none)

/-- Embedding of `getDefaultSystemPrompt` (llm.go). -/
def getDefaultSystemPrompt (promptFile : Except GoError String) : String :=
  match (GetSystemPrompt promptFile).2 with
  | some _ => "You are a helpful AI assistant for cloud architects and DevOps engineers."
  | none => (GetSystemPrompt promptFile).1

/-- Embedding of `NewGeminiLLM` (gemini.go): the instance and the error. -/
def NewGeminiLLM (promptFile : Except GoError String) (config : LLMConfig) :
    Option GeminiLLM × Option GoError :=
  let model := if config.Model = "" then "gemini-1.5-pro" else config.Model
  let endpoint :=
    if config.Endpoint = "" then "https://generativelanguage.googleapis.com/v1beta"
    else config.Endpoint
  let conversationHistory : List Content :=
    [] ++ [⟨"model", [⟨getDefaultSystemPrompt promptFile, none, none⟩]⟩]
  (some ⟨config.APIKey, model, endpoint, conversationHistory⟩, none)

/-- Embedding of `NewLLMProvider` (llm.go): the instance and the error; setting the logger
leaves the modelled fields alone. -/
def NewLLMProvider (promptFile : Except GoError String) (config : LLMConfig) :
    Option GeminiLLM × Option GoError :=
  if config.APIKey = "" then
    (none, some (GoError.wrap .ErrConfiguration "APIKey is required in LLMConfig"))
  else
    if config.Provider = GeminiProvider then
      match NewGeminiLLM promptFile config with
      | (_, some err) => (none, some err)
      | (llmInstance, none) => (llmInstance, none)
    else
      (none, some (GoError.wrap .ErrConfiguration
        ("unsupported LLM provider: " ++ config.Provider)))

end llm

/-! ## Serialisation of the request body -/

namespace llm

/-- Names of the members `json.Marshal` writes for a `GenerationConfig`: every field is tagged
`omitempty`, so a number equal to zero and an empty slice are left out. -/
def GenerationConfig.jsonKeys (c : GenerationConfig) : List String :=
  (if c.Temperature = 0 then [] else ["temperature"]) ++
  (if c.TopP = 0 then [] else ["topP"]) ++
  (if c.TopK = 0 then [] else ["topK"]) ++
  (if c.CandidateCount = 0 then [] else ["candidateCount"]) ++
  (if c.MaxOutputTokens = 0 then [] else ["maxOutputTokens"]) ++
  (if c.StopSequences.length = 0 then [] else ["stopSequences"])

/-- Names of the members `json.Marshal` writes for a `GeminiRequest`: `contents` always,
`tools` and `safetySettings` unless empty, and `generationConfig` always, since `omitempty`
never drops a struct. -/
def GeminiRequest.jsonKeys (r : GeminiRequest) : List String :=
  ["contents"] ++
  (if r.Tools.length = 0 then [] else ["tools"]) ++
  (if r.SafetyRatings.length = 0 then [] else ["safetySettings"]) ++
  ["generationConfig"]

end llm

/-! ## Package `config` -/

namespace config

/-- Application configuration (`config.Config`). -/
structure Config where
  LLM : llm.LLMConfig
  UnsafeMode : Bool
  deriving DecidableEq, Repr

/-- What `LoadConfig` talks to: `os.ReadFile`, `yaml.Unmarshal` into a `Config`, and
`os.Getenv`. -/
structure Host where
  readFile : String → Except GoError String
  unmarshal : String → Except GoError Config
  getenv : String → String

/-- How a call of `LoadConfig` ends: it returns its pair, or it panics. -/
inductive LoadResult where
  | returned (cfg : Option Config) (err : Option GoError)
  | panicked (msg : String)
  deriving DecidableEq, Repr

/-- Embedding of `getAPIKeyEnvVar` (config.go); an error is the message of the panic. -/
def getAPIKeyEnvVar (provider : String) : Except String String :=
  if provider = llm.GeminiProvider then .ok "GEMINI_API_KEY"
  else .error ("unknown LLM provider: " ++ provider)

/-- Embedding of `LoadConfig` (config.go). -/
def LoadConfig (host : Host) (path : String) : LoadResult :=
  match host.readFile path with
  | .error err =>
    .returned none (some ⟨"failed to read config file " ++ path ++ ": " ++ err.msg, none⟩)
  | .ok configFile =>
    match host.unmarshal configFile with
    | .error err =>
      .returned none
        (some ⟨"failed to unmarshal config file " ++ path ++ ": " ++ err.msg, none⟩)
    | .ok cfg =>
      if cfg.LLM.APIKey = "" ∨ cfg.LLM.APIKey = "YOUR_API_KEY_HERE" then
        match getAPIKeyEnvVar cfg.LLM.Provider with
        | .error msg => .panicked msg
        | .ok envVar =>
          let apiKeyFromEnv := host.getenv envVar
          if apiKeyFromEnv = "" then
            .returned none (some ⟨"API key for provider " ++ cfg.LLM.Provider ++
              " not found in config file or environment variable " ++ envVar, none⟩)
          else
            .returned (some { cfg with LLM := { cfg.LLM with APIKey := apiKeyFromEnv } }) none
      else
        .returned (some cfg) none

end config

/-! ## Vocabulary of the specification, continued -/

namespace llm

/-- A candidate after which the candidate loop goes on: it has zero parts, or all its parts
are a non-empty text or a function call and its finish reason is `STOP`. -/
def Candidate.continues (c : Candidate) : Prop :=
  c.Content.Parts = [] ∨
    ((∀ p ∈ c.Content.Parts, p.Text ≠ "" ∨ p.FunctionCall ≠ none) ∧ c.FinishReason = "STOP")

/-- A round trip after which the request loop goes on: a response with status 200 that parsed,
with at least one candidate, every candidate being one after which the loop goes on. -/
def RoundTrip.continues : RoundTrip → Prop
  | .response status _ (.ok resp) =>
    status = 200 ∧ resp.Candidates ≠ [] ∧ ∀ c ∈ resp.Candidates, c.continues
  | _ => False

/-- A round trip in which the request is handed to the HTTP client: every one but those that
fail while the request is marshalled or created. -/
def RoundTrip.sends : RoundTrip → Bool
  | .marshalError _ => false
  | .newRequestError _ => false
  | _ => true

end llm

namespace tools

/-- The text an option adds to a command line, in the words of the specification: the flag
followed by the value when the option is present as a non-empty string, nothing otherwise. -/
def optionText (args : GoMap) (key flag : String) : String :=
  match GoMap.get args key with
  | some (.str v) => if v = "" then "" else flag ++ v
  | _ => ""

end tools

/-! ## Sample data for closed instances -/

namespace llm

/-- Sample tool: it answers with the number of invocations that preceded it. -/
def sampleTool : tools.ToolFunction :=
  fun n _ => ⟨some [("output", .str "ok"), ("exit_code", .num n)], none⟩

/-- Sample tool that fails to launch. -/
def failingTool : tools.ToolFunction :=
  fun _ _ => ⟨none, some ⟨"failed to execute command: boom", none⟩⟩

/-- Sample environment: safe mode, two registered tools, an operator who answers `n`. -/
def sampleEnv : Env :=
  { UnsafeMode := false
    Tools := []
    AvailableTools := [("bash", sampleTool), ("helm", failingTool)]
    stdin := fun _ => ⟨"n\n", none⟩
    unicodeLower := id }

/-- Sample environment whose operator answers ` YES `. -/
def yesEnv : Env :=
  { sampleEnv with stdin := fun _ => ⟨" YES \r\n", none⟩ }

/-- Sample session before any turn. -/
def sampleState : State :=
  ⟨⟨"key", "gemini-1.5-pro", "https://example.test", []⟩, ⟨[], 0, 0⟩⟩

/-- Sample session once `Chat` has appended the caller's message `hi`. -/
def sampleReached : State :=
  ⟨⟨"key", "gemini-1.5-pro", "https://example.test", [⟨"user", [⟨"hi", none, none⟩]⟩]⟩,
    ⟨[], 0, 0⟩⟩

/-- Request URL of the sample session. -/
def sampleURL : String :=
  "https://example.test/models/gemini-1.5-pro:generateContent?key=key"

/-- Sample session right after the first request was sent. -/
def sampleSent : State :=
  sendRequest sampleURL [] sampleReached

/-- Sample function-call part for the tool `bash`. -/
def bashCall : Part :=
  ⟨"", some ⟨"bash", some [("command", .str "ls")]⟩, none⟩

/-- Sample function-call part for a name that is not registered. -/
def fooCall : Part :=
  ⟨"", some ⟨"foo", none⟩, none⟩

/-- Sample empty part. -/
def emptyPart : Part :=
  ⟨"", none, none⟩

/-- Sample candidate: a note, then a call of `bash`, cut short for safety reasons. -/
def safetyCandidate : Candidate :=
  ⟨⟨"model", [⟨"note", none, none⟩, bashCall]⟩, "SAFETY"⟩

/-- Sample candidate: a note, an empty part, then a call of `bash`. -/
def brokenCandidate : Candidate :=
  ⟨⟨"model", [⟨"note", none, none⟩, emptyPart, bashCall]⟩, "STOP"⟩

/-- Sample candidate: a call of `bash`, a text, a call of an unregistered tool. -/
def mixedCandidate : Candidate :=
  ⟨⟨"model", [bashCall, ⟨"done", none, none⟩, fooCall]⟩, "STOP"⟩

/-- Sample environment whose confirmation read hits end of input. -/
def eofEnv : Env :=
  { sampleEnv with stdin := fun _ => ⟨"", some ⟨"EOF", none⟩⟩ }

/-- Sample environment in unsafe mode. -/
def unsafeEnv : Env :=
  { sampleEnv with UnsafeMode := true }

/-- Sample candidate whose content came back with the role `user`. -/
def userRoleCandidate : Candidate :=
  ⟨⟨"user", [⟨"hello", none, none⟩]⟩, "OTHER"⟩

/-- Sample configuration with only the provider and the key set. -/
def sampleConfig : LLMConfig :=
  ⟨"gemini", "test-api-key", "", ""⟩

end llm

namespace tools

/-- Sample shell: `false` exits with code 1, `nosuch` cannot be started, any other line is
echoed with code 0. -/
def sampleShell : Shell := fun _ line =>
  if line = "false" then ⟨"", some (.exitError 1)⟩
  else if line = "nosuch" then ⟨"", some (.other "exec: not found")⟩
  else ⟨line, none⟩

end tools

namespace llm

/-- Sample part that carries both a text and a call of `bash`. -/
def textAndCallPart : Part :=
  ⟨"note", some ⟨"bash", some [("command", .str "ls")]⟩, none⟩

/-- Sample candidate made of that part alone, cut short for safety reasons. -/
def textAndCallCandidate : Candidate :=
  ⟨⟨"model", [textAndCallPart]⟩, "SAFETY"⟩

/-- Sample candidate: the part with a text and a call, then a call of an unregistered tool. -/
def shadowedCallCandidate : Candidate :=
  ⟨⟨"model", [textAndCallPart, fooCall]⟩, "STOP"⟩

/-- Sample response with two candidates: a text, then a call of `bash`, both with `STOP`. -/
def twoCandidates : GeminiResponse :=
  ⟨[⟨⟨"model", [⟨"first", none, none⟩]⟩, "STOP"⟩, ⟨⟨"model", [bashCall]⟩, "STOP"⟩]⟩

end llm

namespace config

/-- Sample host: one file that parses into a gemini configuration with the placeholder key,
and the key `env-api-key` in the environment. -/
def sampleHost : Host :=
  { readFile := fun p => if p = "config.yaml" then .ok "llm" else .error ⟨"no such file", none⟩
    unmarshal := fun _ => .ok ⟨⟨"gemini", "YOUR_API_KEY_HERE", "gemini-pro", ""⟩, false⟩
    getenv := fun v => if v = "GEMINI_API_KEY" then "env-api-key" else "" }

end config

/-! ## Basic facts about the state helpers -/

namespace llm

@[simp] theorem State.append_history (st : State) (c : Content) :
    (st.append c).g.conversationHistory = st.g.conversationHistory ++ [c] := rfl

@[simp] theorem State.append_w (st : State) (c : Content) : (st.append c).w = st.w := rfl

@[simp] theorem State.log_g (st : State) (e : Event) : (st.log e).g = st.g := rfl

@[simp] theorem State.log_w_trace (st : State) (e : Event) :
    (st.log e).w.trace = st.w.trace ++ [e] := rfl

end llm

/-! ## Projections of a trace -/

theorem partEvents_append (a b : List Event) :
    partEvents (a ++ b) = partEvents a ++ partEvents b := by
  simp [partEvents]

theorem requestsOf_append (a b : List Event) :
    requestsOf (a ++ b) = requestsOf a ++ requestsOf b := by
  simp [requestsOf]

theorem partEvents_gate (evs : List Event) (h : ∀ e ∈ evs, e.isGateEvent = true) :
    partEvents evs = [] := by
  induction evs with
  | nil => rfl
  | cons e es ih =>
    have he := h e (List.mem_cons_self _ _)
    have hes : ∀ x ∈ es, x.isGateEvent = true := fun x hx => h x (List.mem_cons_of_mem _ hx)
    have ih2 := ih hes
    cases e <;> simp_all [partEvents, Event.isGateEvent]

theorem requestsOf_gate (evs : List Event) (h : ∀ e ∈ evs, e.isGateEvent = true) :
    requestsOf evs = [] := by
  induction evs with
  | nil => rfl
  | cons e es ih =>
    have he := h e (List.mem_cons_self _ _)
    have hes : ∀ x ∈ es, x.isGateEvent = true := fun x hx => h x (List.mem_cons_of_mem _ hx)
    have ih2 := ih hes
    cases e <;> simp_all [requestsOf, Event.isGateEvent]

@[simp] theorem World.log_trace (w : World) (e : Event) : (w.log e).trace = w.trace ++ [e] := rfl

@[simp] theorem World.log_reads (w : World) (e : Event) : (w.log e).reads = w.reads := rfl

@[simp] theorem World.log_invocations (w : World) (e : Event) :
    (w.log e).invocations = w.invocations := rfl

/-! ## What each loop adds to the history and to the trace -/

namespace tools

theorem ExecuteToolWithConfirmation_trace (env : Env) (w : World) (name : String)
    (toolFunc : ToolFunction) (args : GoMap) :
    ∃ evs, (ExecuteToolWithConfirmation env w name toolFunc args).1.trace = w.trace ++ evs ∧
      ∀ e ∈ evs, e.isGateEvent = true := by
  unfold ExecuteToolWithConfirmation
  by_cases hu : env.UnsafeMode = true
  · refine ⟨[.invoke name args], ?_, ?_⟩ <;> simp [hu, invokeTool, World.log, Event.isGateEvent]
  · simp only [hu, World.log_reads]
    cases hr : (env.stdin w.reads).err with
    | some e =>
      refine ⟨[.prompt name args], ?_, ?_⟩ <;> simp [hr, World.log, Event.isGateEvent]
    | none =>
      by_cases hc : ToLower env (TrimSpace (env.stdin w.reads).data) ≠ "y" ∧
          ToLower env (TrimSpace (env.stdin w.reads).data) ≠ "yes"
      · refine ⟨[.prompt name args], ?_, ?_⟩ <;> simp [hr, hc, World.log, Event.isGateEvent]
      · refine ⟨[.prompt name args, .invoke name args], ?_, ?_⟩ <;>
          simp [hr, hc, invokeTool, World.log, Event.isGateEvent]

end tools

namespace llm

theorem handleFunctionCall_effect (env : Env) (st : State) (fc : FunctionCall) :
    ∃ payload evs,
      (handleFunctionCall env st fc).1.g.conversationHistory =
        st.g.conversationHistory ++ [functionResponseMessage fc.Name payload] ∧
      (handleFunctionCall env st fc).1.w.trace = st.w.trace ++ .dispatch fc.Name fc.Args :: evs ∧
      ∀ e ∈ evs, e.isGateEvent = true := by
  unfold handleFunctionCall
  cases hl : env.AvailableTools.lookup fc.Name with
  | none =>
    exact ⟨some [("error", .str ("Tool not found: " ++ fc.Name))], [], by simp, by simp, by simp⟩
  | some toolFunc =>
    obtain ⟨evs, htr, hg⟩ := tools.ExecuteToolWithConfirmation_trace env
      (st.log (.dispatch fc.Name fc.Args)).w fc.Name toolFunc fc.Args
    cases he : (tools.ExecuteToolWithConfirmation env (st.log (.dispatch fc.Name fc.Args)).w
        fc.Name toolFunc fc.Args).2.err with
    | some err =>
      refine ⟨some [("error", .str ("Error executing tool " ++ fc.Name ++ ": " ++ err.msg))],
        evs, ?_, ?_, hg⟩
      · simp [he]
      · simp [he, htr]
    | none =>
      refine ⟨(tools.ExecuteToolWithConfirmation env (st.log (.dispatch fc.Name fc.Args)).w
        fc.Name toolFunc fc.Args).2.result, evs, ?_, ?_, hg⟩
      · simp [he]
      · simp [he, htr]

theorem processParts_cons_text (env : Env) (st : State) (p : Part) (ps : List Part)
    (h : p.Text ≠ "") :
    processParts env st (p :: ps) = processParts env (st.log (.emit p.Text)) ps := by
  simp [processParts, h]

theorem processParts_cons_call (env : Env) (st : State) (p : Part) (ps : List Part)
    (fc : FunctionCall) (h : p.Text = "") (hc : p.FunctionCall = some fc) :
    processParts env st (p :: ps) = processParts env (handleFunctionCall env st fc).1 ps := by
  simp [processParts, h, hc]

theorem processParts_cons_empty (env : Env) (st : State) (p : Part) (ps : List Part)
    (h : p.Text = "") (hc : p.FunctionCall = none) :
    processParts env st (p :: ps) = (st.append placeholderMessage, .returned none) := by
  simp [processParts, h, hc]

theorem processParts_effect (env : Env) (ps : List Part) : ∀ st : State,
    ∃ rs evs,
      (processParts env st ps).1.g.conversationHistory =
        st.g.conversationHistory ++ rs ++
          (if ps.any Part.isEmpty then [placeholderMessage] else []) ∧
      List.Forall₂ IsFunctionResponseFor (dispatchedCalls (handledParts ps)) rs ∧
      (processParts env st ps).1.w.trace = st.w.trace ++ evs ∧
      partEvents evs = (handledParts ps).flatMap Part.effect ∧
      requestsOf evs = [] ∧
      (processParts env st ps).2 = (if ps.any Part.isEmpty then .returned none else .next) := by
  induction ps with
  | nil =>
    intro st
    exact ⟨[], [], by simp [processParts], by simp [handledParts, dispatchedCalls],
      by simp [processParts], by simp [handledParts, partEvents], by simp [requestsOf],
      by simp [processParts]⟩
  | cons p ps ih =>
    intro st
    by_cases ht : p.Text = ""
    · cases hc : p.FunctionCall with
      | none =>
        have hemp : p.isEmpty = true := by simp [Part.isEmpty, ht, hc]
        rw [processParts_cons_empty env st p ps ht hc]
        exact ⟨[], [], by simp [hemp], by simp [handledParts, dispatchedCalls, hemp],
          by simp, by simp [handledParts, partEvents, hemp], by simp [requestsOf],
          by simp [hemp]⟩
      | some fc =>
        have hemp : p.isEmpty = false := by simp [Part.isEmpty, hc]
        rw [processParts_cons_call env st p ps fc ht hc]
        obtain ⟨payload, evs0, hh0, ht0, hg0⟩ := handleFunctionCall_effect env st fc
        obtain ⟨rs, evs, hh, hr, htr, hpe, hrq, hfl⟩ := ih (handleFunctionCall env st fc).1
        refine ⟨functionResponseMessage fc.Name payload :: rs, .dispatch fc.Name fc.Args :: evs0 ++ evs,
          ?_, ?_, ?_, ?_, ?_, ?_⟩
        · rw [hh, hh0]; simp [hemp]
        · have hcall : p.call = some fc := by simp [Part.call, ht, hc]
          simp only [handledParts, dispatchedCalls, List.takeWhile_cons, hemp, Bool.not_false,
            if_true, List.filterMap_cons, hcall]
          exact List.Forall₂.cons ⟨payload, rfl⟩ hr
        · rw [htr, ht0]; simp
        · have h1 : partEvents (Event.dispatch fc.Name fc.Args :: evs0 ++ evs) =
              Event.dispatch fc.Name fc.Args :: (partEvents evs0 ++ partEvents evs) := by
            simp [partEvents]
          rw [h1, partEvents_gate evs0 hg0, hpe]
          simp [handledParts, hemp, Part.effect, ht, hc]
        · have h1 : requestsOf (Event.dispatch fc.Name fc.Args :: evs0 ++ evs) =
              requestsOf evs0 ++ requestsOf evs := by
            simp [requestsOf]
          rw [h1, requestsOf_gate evs0 hg0, hrq]; rfl
        · rw [hfl]; simp [hemp]
    · have hemp : p.isEmpty = false := by simp [Part.isEmpty, ht]
      rw [processParts_cons_text env st p ps ht]
      obtain ⟨rs, evs, hh, hr, htr, hpe, hrq, hfl⟩ := ih (st.log (.emit p.Text))
      refine ⟨rs, .emit p.Text :: evs, ?_, ?_, ?_, ?_, ?_, ?_⟩
      · rw [hh]; simp [hemp]
      · have hcall : p.call = none := by simp [Part.call, ht]
        simp only [handledParts, dispatchedCalls, List.takeWhile_cons, hemp, Bool.not_false,
          if_true, List.filterMap_cons, hcall]
        exact hr
      · rw [htr]; simp
      · have h1 : partEvents (Event.emit p.Text :: evs) = Event.emit p.Text :: partEvents evs := by
          simp [partEvents]
        rw [h1, hpe]
        simp [handledParts, hemp, Part.effect, ht]
      · have h1 : requestsOf (Event.emit p.Text :: evs) = requestsOf evs := by
          simp [requestsOf]
        rw [h1, hrq]
      · rw [hfl]; simp [hemp]

theorem processCandidates_cons_skip (env : Env) (st : State) (c : Candidate) (cs : List Candidate)
    (h : c.Content.Parts = []) :
    processCandidates env st (c :: cs) = processCandidates env st cs := by
  simp [processCandidates, h]

theorem processCandidates_cons (env : Env) (st : State) (c : Candidate) (cs : List Candidate)
    (h : c.Content.Parts ≠ []) :
    processCandidates env st (c :: cs) =
      match processParts env (st.append (modelResponse c)) c.Content.Parts with
      | (st2, .returned e) => (st2, .returned e)
      | (st2, .next) =>
        if finishContinues c.FinishReason then processCandidates env st2 cs
        else (st2, .returned none) := by
  simp [processCandidates, h]

theorem processCandidates_effect (env : Env) (cs : List Candidate) : ∀ st : State,
    ∃ (blocks : List (List Content)) (evs : List Event),
      (processCandidates env st cs).1.g.conversationHistory =
        st.g.conversationHistory ++ blocks.flatten ∧
      (∀ blk ∈ blocks, IsTurnBlock blk) ∧
      (processCandidates env st cs).1.w.trace = st.w.trace ++ evs ∧
      requestsOf evs = [] ∧
      ((processCandidates env st cs).2 = .next ∨
        (processCandidates env st cs).2 = .returned none) := by
  induction cs with
  | nil =>
    intro st
    exact ⟨[], [], by simp [processCandidates], by simp, by simp [processCandidates],
      by simp [requestsOf], by simp [processCandidates]⟩
  | cons c cs ih =>
    intro st
    by_cases hp : c.Content.Parts = []
    · rw [processCandidates_cons_skip env st c cs hp]
      exact ih st
    · rw [processCandidates_cons env st c cs hp]
      obtain ⟨rs, evs, hh, hr, htr, _, hrq, hfl⟩ :=
        processParts_effect env c.Content.Parts (st.append (modelResponse c))
      have hblk : IsTurnBlock (modelResponse c :: rs ++
          (if c.Content.Parts.any Part.isEmpty then [placeholderMessage] else [])) :=
        ⟨modelResponse c, rs, rfl, hr, rfl⟩
      rcases hpp : processParts env (st.append (modelResponse c)) c.Content.Parts with ⟨st2, fl⟩
      rw [hpp] at hh htr hfl
      simp only at hh htr hfl
      by_cases hany : c.Content.Parts.any Part.isEmpty = true
      · rw [if_pos hany] at hfl
        subst hfl
        refine ⟨[modelResponse c :: rs ++
          (if c.Content.Parts.any Part.isEmpty then [placeholderMessage] else [])], evs,
          ?_, ?_, ?_, hrq, Or.inr rfl⟩
        · simp [hh]
        · intro blk hb
          simp only [List.mem_singleton] at hb
          subst hb
          exact hblk
        · simp [htr]
      · rw [if_neg hany] at hfl
        subst hfl
        by_cases hf : finishContinues c.FinishReason = true
        · simp only [hf, if_true]
          obtain ⟨blocks, evs2, hh2, hb2, htr2, hrq2, hfl2⟩ := ih st2
          refine ⟨(modelResponse c :: rs ++
            (if c.Content.Parts.any Part.isEmpty then [placeholderMessage] else [])) :: blocks,
            evs ++ evs2, ?_, ?_, ?_, ?_, hfl2⟩
          · rw [hh2, hh]; simp
          · intro blk hb
            rcases List.mem_cons.mp hb with hb | hb
            · subst hb; exact hblk
            · exact hb2 blk hb
          · rw [htr2, htr]; simp
          · rw [requestsOf_append, hrq, hrq2]; rfl
        · simp only [hf]
          refine ⟨[modelResponse c :: rs ++
            (if c.Content.Parts.any Part.isEmpty then [placeholderMessage] else [])], evs,
            ?_, ?_, ?_, hrq, Or.inr rfl⟩
          · simp [hh]
          · intro blk hb
            simp only [List.mem_singleton] at hb
            subst hb
            exact hblk
          · simp [htr]

theorem Settled.refl (h0 : List Content) : Settled h0 h0 :=
  ⟨[], by simp, by simp⟩

theorem Settled.extend {h0 h : List Content} (hs : Settled h0 h) (blocks : List (List Content))
    (hb : ∀ blk ∈ blocks, IsTurnBlock blk) : Settled h0 (h ++ blocks.flatten) := by
  obtain ⟨bs, rfl, hbs⟩ := hs
  refine ⟨bs ++ blocks, by simp, ?_⟩
  intro blk hmem
  rcases List.mem_append.mp hmem with hm | hm
  · exact hbs blk hm
  · exact hb blk hm

@[simp] theorem sendRequest_history (url : String) (gts : List Tool) (st : State) :
    (sendRequest url gts st).g.conversationHistory = st.g.conversationHistory := rfl

@[simp] theorem sendRequest_trace (url : String) (gts : List Tool) (st : State) :
    (sendRequest url gts st).w.trace =
      st.w.trace ++ [.request url (requestPayload st.g.conversationHistory gts)] := rfl

theorem requestsOf_request (url : String) (h : List Content) (gts : List Tool) :
    requestsOf [.request url (requestPayload h gts)] = [h] := rfl

theorem requestsOf_cons_request (url : String) (h : List Content) (gts : List Tool)
    (evs : List Event) :
    requestsOf (.request url (requestPayload h gts) :: evs) = h :: requestsOf evs := rfl

theorem chatLoop_response (env : Env) (url : String) (gts : List Tool) (st : State)
    (body : String) (resp : GeminiResponse) (script : List RoundTrip)
    (hne : resp.Candidates ≠ []) :
    chatLoop env url gts st (.response 200 body (.ok resp) :: script) =
      match processCandidates env (sendRequest url gts st) resp.Candidates with
      | (st2, .returned e) => (st2, .returned e)
      | (st2, .next) => chatLoop env url gts st2 script := by
  simp [chatLoop, hne]

theorem chatLoop_append (env : Env) (url : String) (gts : List Tool) (script : List RoundTrip) :
    ∀ (pre : List RoundTrip) (st s : State),
      chatLoop env url gts st pre = (s, .awaitingReply) →
      chatLoop env url gts st (pre ++ script) = chatLoop env url gts s script := by
  intro pre
  induction pre with
  | nil =>
    intro st s h
    simp [chatLoop] at h
    simp [h]
  | cons rt pre ih =>
    intro st s h
    cases rt with
    | marshalError m => simp [chatLoop] at h
    | newRequestError m => simp [chatLoop] at h
    | sendError m => simp [chatLoop] at h
    | readError m => simp [chatLoop] at h
    | response status body parsed =>
      by_cases hs : status = 200
      · subst hs
        cases parsed with
        | error m => simp [chatLoop] at h
        | ok resp =>
          by_cases hne : resp.Candidates = []
          · simp [chatLoop, hne] at h
          · rw [chatLoop_response env url gts st body resp pre hne] at h
            rw [List.cons_append, chatLoop_response env url gts st body resp (pre ++ script) hne]
            rcases hpc : processCandidates env (sendRequest url gts st) resp.Candidates
              with ⟨st2, fl⟩
            rw [hpc] at h
            cases fl with
            | returned e => simp at h
            | next => exact ih st2 s h
      · simp [chatLoop, hs] at h

theorem chatLoop_settled (env : Env) (url : String) (gts : List Tool) (h0 : List Content)
    (script : List RoundTrip) : ∀ st : State, Settled h0 st.g.conversationHistory →
    ∃ evs, (chatLoop env url gts st script).1.w.trace = st.w.trace ++ evs ∧
      ∀ snap ∈ requestsOf evs ++ [(chatLoop env url gts st script).1.g.conversationHistory],
        Settled h0 snap := by
  induction script with
  | nil =>
    intro st hst
    exact ⟨[], by simp [chatLoop], by simpa [chatLoop, requestsOf] using hst⟩
  | cons rt script ih =>
    intro st hst
    have hsend : ∃ evs,
        (sendRequest url gts st).w.trace = st.w.trace ++ evs ∧
        ∀ snap ∈ requestsOf evs ++ [(sendRequest url gts st).g.conversationHistory],
          Settled h0 snap := by
      refine ⟨[.request url (requestPayload st.g.conversationHistory gts)], by simp, ?_⟩
      intro snap hsnap
      simp only [requestsOf_request, sendRequest_history, List.mem_append, List.mem_singleton,
        or_self] at hsnap
      subst hsnap
      exact hst
    cases rt with
    | marshalError m => exact ⟨[], by simp [chatLoop], by simpa [chatLoop, requestsOf] using hst⟩
    | newRequestError m =>
      exact ⟨[], by simp [chatLoop], by simpa [chatLoop, requestsOf] using hst⟩
    | sendError m => simpa [chatLoop] using hsend
    | readError m => simpa [chatLoop] using hsend
    | response status body parsed =>
      by_cases hs : status = 200
      · subst hs
        cases parsed with
        | error m => simpa [chatLoop] using hsend
        | ok resp =>
          by_cases hne : resp.Candidates = []
          · simpa [chatLoop, hne] using hsend
          · rw [chatLoop_response env url gts st body resp script hne]
            obtain ⟨blocks, evs1, hh1, hb1, htr1, hrq1, _⟩ :=
              processCandidates_effect env resp.Candidates (sendRequest url gts st)
            rcases hpc : processCandidates env (sendRequest url gts st) resp.Candidates
              with ⟨st2, fl⟩
            rw [hpc] at hh1 htr1
            simp only [sendRequest_history, sendRequest_trace] at hh1 htr1
            have hst2 : Settled h0 st2.g.conversationHistory := by
              rw [hh1]; exact hst.extend blocks hb1
            cases fl with
            | returned e =>
              refine ⟨.request url (requestPayload st.g.conversationHistory gts) :: evs1,
                by simp [htr1], ?_⟩
              intro snap hsnap
              have hreq : requestsOf (Event.request url
                  (requestPayload st.g.conversationHistory gts) :: evs1) =
                  [st.g.conversationHistory] := by
                rw [requestsOf_cons_request, hrq1]
              rw [hreq] at hsnap
              simp only [List.mem_append, List.mem_singleton] at hsnap
              rcases hsnap with h | h
              · subst h; exact hst
              · subst h; exact hst2
            | next =>
              obtain ⟨evs2, htr2, hall2⟩ := ih st2 hst2
              refine ⟨.request url (requestPayload st.g.conversationHistory gts) :: evs1 ++ evs2,
                by simp [htr2, htr1], ?_⟩
              intro snap hsnap
              have hreq : requestsOf (Event.request url
                  (requestPayload st.g.conversationHistory gts) :: evs1 ++ evs2) =
                  st.g.conversationHistory :: requestsOf evs2 := by
                rw [List.cons_append, requestsOf_cons_request, requestsOf_append, hrq1]
                rfl
              rw [hreq] at hsnap
              simp only [List.cons_append, List.mem_cons] at hsnap
              rcases hsnap with h | h
              · subst h; exact hst
              · exact hall2 snap h
      · simpa [chatLoop, hs] using hsend

theorem finishContinues_iff (r : String) : finishContinues r = true ↔ r = "STOP" := by
  unfold finishContinues
  split <;> simp_all

theorem foldl_append_messages (messages : List Message) : ∀ st : State,
    messages.foldl (fun s msg => s.append (messageContent msg)) st =
      ⟨{ st.g with conversationHistory :=
          st.g.conversationHistory ++ messages.map messageContent }, st.w⟩ := by
  induction messages with
  | nil => intro st; simp
  | cons m ms ih =>
    intro st
    rw [List.foldl_cons, ih]
    simp [State.append]

theorem Chat_eq_chatLoop (env : Env) (st : State) (messages : List Message)
    (script : List RoundTrip) :
    Chat env st messages script =
      chatLoop env (chatURL st.g) (geminiTools env.Tools)
        ⟨{ st.g with conversationHistory :=
            st.g.conversationHistory ++ messages.map messageContent }, st.w⟩ script := by
  unfold Chat
  rw [foldl_append_messages]

theorem Chat_append (env : Env) (st : State) (messages : List Message)
    (pre script : List RoundTrip) (s : State)
    (hreach : Chat env st messages pre = (s, .awaitingReply)) :
    Chat env st messages (pre ++ script) =
      chatLoop env (chatURL st.g) (geminiTools env.Tools) s script := by
  rw [Chat_eq_chatLoop] at hreach ⊢
  exact chatLoop_append env _ _ script pre _ s hreach

theorem processCandidates_append_next (env : Env) (cs : List Candidate) :
    ∀ (cs1 : List Candidate) (st s1 : State),
      processCandidates env st cs1 = (s1, .next) →
      processCandidates env st (cs1 ++ cs) = processCandidates env s1 cs := by
  intro cs1
  induction cs1 with
  | nil =>
    intro st s1 h
    simp [processCandidates] at h
    simp [h]
  | cons c cs1 ih =>
    intro st s1 h
    by_cases hp : c.Content.Parts = []
    · rw [processCandidates_cons_skip env st c cs1 hp] at h
      rw [List.cons_append, processCandidates_cons_skip env st c _ hp]
      exact ih st s1 h
    · rw [processCandidates_cons env st c cs1 hp] at h
      rw [List.cons_append, processCandidates_cons env st c _ hp]
      rcases hpp : processParts env (st.append (modelResponse c)) c.Content.Parts with ⟨st2, fl⟩
      rw [hpp] at h
      cases fl with
      | returned e => simp at h
      | next =>
        by_cases hf : finishContinues c.FinishReason = true
        · simp only [hf, if_true] at h ⊢
          exact ih st2 s1 h
        · simp [hf] at h

theorem processParts_append_next (env : Env) (qs : List Part) :
    ∀ (ps : List Part) (st s2 : State),
      processParts env st ps = (s2, .next) →
      processParts env st (ps ++ qs) = processParts env s2 qs := by
  intro ps
  induction ps with
  | nil =>
    intro st s2 h
    simp [processParts] at h
    simp [h]
  | cons p ps ih =>
    intro st s2 h
    by_cases ht : p.Text = ""
    · cases hc : p.FunctionCall with
      | none => rw [processParts_cons_empty env st p ps ht hc] at h; simp at h
      | some fc =>
        rw [processParts_cons_call env st p ps fc ht hc] at h
        rw [List.cons_append, processParts_cons_call env st p _ fc ht hc]
        exact ih _ s2 h
    · rw [processParts_cons_text env st p ps ht] at h
      rw [List.cons_append, processParts_cons_text env st p _ ht]
      exact ih _ s2 h

theorem any_isEmpty_of_wellFormed (ps : List Part)
    (hwf : ∀ p ∈ ps, p.Text ≠ "" ∨ p.FunctionCall ≠ none) : ps.any Part.isEmpty = false := by
  rw [List.any_eq_false]
  intro p hp
  rcases hwf p hp with h | h
  · simp [Part.isEmpty, h]
  · cases hc : p.FunctionCall with
    | none => exact absurd hc h
    | some fc => simp [Part.isEmpty, hc]

theorem handledParts_of_wellFormed (ps : List Part)
    (hwf : ∀ p ∈ ps, p.Text ≠ "" ∨ p.FunctionCall ≠ none) : handledParts ps = ps := by
  unfold handledParts
  rw [List.takeWhile_eq_self_iff]
  intro p hp
  have := List.any_eq_false.mp (any_isEmpty_of_wellFormed ps hwf) p hp
  simpa using this

theorem processParts_wellFormed (env : Env) (st : State) (ps : List Part)
    (hwf : ∀ p ∈ ps, p.Text ≠ "" ∨ p.FunctionCall ≠ none) :
    ∃ s2 rs evs, processParts env st ps = (s2, .next) ∧
      s2.g.conversationHistory = st.g.conversationHistory ++ rs ∧
      List.Forall₂ IsFunctionResponseFor (dispatchedCalls ps) rs ∧
      s2.w.trace = st.w.trace ++ evs ∧
      partEvents evs = ps.flatMap Part.effect ∧
      requestsOf evs = [] := by
  obtain ⟨rs, evs, hh, hr, htr, hpe, hrq, hfl⟩ := processParts_effect env ps st
  rw [any_isEmpty_of_wellFormed ps hwf] at hh hfl
  rw [handledParts_of_wellFormed ps hwf] at hr hpe
  rcases hpp : processParts env st ps with ⟨s2, fl⟩
  rw [hpp] at hh htr hfl
  simp only at hh htr hfl
  refine ⟨s2, rs, evs, ?_, ?_, hr, htr, hpe, hrq⟩
  · simp at hfl; rw [hfl]
  · simpa using hh

theorem chatLoop_grows (env : Env) (url : String) (gts : List Tool) (script : List RoundTrip) :
    ∀ st : State, ∃ (hs : List Content) (evs : List Event),
      (chatLoop env url gts st script).1.g.conversationHistory = st.g.conversationHistory ++ hs ∧
      (chatLoop env url gts st script).1.w.trace = st.w.trace ++ evs ∧
      ∀ snap ∈ requestsOf evs, ∃ t, snap = st.g.conversationHistory ++ t := by
  induction script with
  | nil =>
    intro st
    exact ⟨[], [], by simp [chatLoop], by simp [chatLoop], by simp [requestsOf]⟩
  | cons rt script ih =>
    intro st
    have hsend : ∃ (hs : List Content) (evs : List Event),
        (sendRequest url gts st).g.conversationHistory = st.g.conversationHistory ++ hs ∧
        (sendRequest url gts st).w.trace = st.w.trace ++ evs ∧
        ∀ snap ∈ requestsOf evs, ∃ t, snap = st.g.conversationHistory ++ t := by
      refine ⟨[], [.request url (requestPayload st.g.conversationHistory gts)], by simp, by simp, ?_⟩
      intro snap hsnap
      rw [requestsOf_request, List.mem_singleton] at hsnap
      exact ⟨[], by simp [hsnap]⟩
    cases rt with
    | marshalError m => exact ⟨[], [], by simp [chatLoop], by simp [chatLoop], by simp [requestsOf]⟩
    | newRequestError m =>
      exact ⟨[], [], by simp [chatLoop], by simp [chatLoop], by simp [requestsOf]⟩
    | sendError m => simpa [chatLoop] using hsend
    | readError m => simpa [chatLoop] using hsend
    | response status body parsed =>
      by_cases hs : status = 200
      · subst hs
        cases parsed with
        | error m => simpa [chatLoop] using hsend
        | ok resp =>
          by_cases hne : resp.Candidates = []
          · simpa [chatLoop, hne] using hsend
          · rw [chatLoop_response env url gts st body resp script hne]
            obtain ⟨blocks, evs1, hh1, _, htr1, hrq1, _⟩ :=
              processCandidates_effect env resp.Candidates (sendRequest url gts st)
            rcases hpc : processCandidates env (sendRequest url gts st) resp.Candidates
              with ⟨st2, fl⟩
            rw [hpc] at hh1 htr1
            simp only [sendRequest_history, sendRequest_trace] at hh1 htr1
            cases fl with
            | returned e =>
              refine ⟨blocks.flatten,
                .request url (requestPayload st.g.conversationHistory gts) :: evs1,
                by simp [hh1], by simp [htr1], ?_⟩
              intro snap hsnap
              rw [requestsOf_cons_request, hrq1, List.mem_singleton] at hsnap
              exact ⟨[], by simp [hsnap]⟩
            | next =>
              obtain ⟨hs2, evs2, hh2, htr2, hall2⟩ := ih st2
              refine ⟨blocks.flatten ++ hs2,
                .request url (requestPayload st.g.conversationHistory gts) :: evs1 ++ evs2,
                by simp [hh2, hh1], by simp [htr2, htr1], ?_⟩
              intro snap hsnap
              rw [List.cons_append, requestsOf_cons_request, requestsOf_append, hrq1,
                List.nil_append, List.mem_cons] at hsnap
              rcases hsnap with h | h
              · exact ⟨[], by simp [h]⟩
              · obtain ⟨t, ht⟩ := hall2 snap h
                exact ⟨blocks.flatten ++ t, by rw [ht, hh1]; simp⟩
      · simpa [chatLoop, hs] using hsend

/-- What is left of a run once a candidate has been handled with `continue`. -/
theorem response_tail_grows (env : Env) (url : String) (gts : List Tool) (s2 : State)
    (cs2 : List Candidate) (rest : List RoundTrip) :
    ∃ (hs : List Content) (evs : List Event),
      (match processCandidates env s2 cs2 with
        | (s3, .returned e) => (s3, Outcome.returned e)
        | (s3, .next) => chatLoop env url gts s3 rest).1.g.conversationHistory =
          s2.g.conversationHistory ++ hs ∧
      (match processCandidates env s2 cs2 with
        | (s3, .returned e) => (s3, Outcome.returned e)
        | (s3, .next) => chatLoop env url gts s3 rest).1.w.trace = s2.w.trace ++ evs ∧
      ∀ snap ∈ requestsOf evs, ∃ t, snap = s2.g.conversationHistory ++ t := by
  obtain ⟨blocks, evs1, hh1, _, htr1, hrq1, _⟩ := processCandidates_effect env cs2 s2
  rcases hpc : processCandidates env s2 cs2 with ⟨s3, fl⟩
  rw [hpc] at hh1 htr1
  simp only at hh1 htr1
  cases fl with
  | returned e =>
    exact ⟨blocks.flatten, evs1, by simp [hh1], by simp [htr1], by simp [hrq1]⟩
  | next =>
    obtain ⟨hs2, evs2, hh2, htr2, hall2⟩ := chatLoop_grows env url gts rest s3
    refine ⟨blocks.flatten ++ hs2, evs1 ++ evs2, by simp [hh2, hh1], by simp [htr2, htr1], ?_⟩
    intro snap hsnap
    rw [requestsOf_append, hrq1, List.nil_append] at hsnap
    obtain ⟨t, ht⟩ := hall2 snap hsnap
    exact ⟨blocks.flatten ++ t, by rw [ht, hh1]; simp⟩

theorem Chat_at_candidate (env : Env) (st : State) (messages : List Message)
    (pre : List RoundTrip) (s s1 : State) (body : String) (cs1 : List Candidate) (c : Candidate)
    (cs2 : List Candidate) (rest : List RoundTrip)
    (hreach : Chat env st messages pre = (s, .awaitingReply))
    (hcs1 : processCandidates env (sendRequest (chatURL st.g) (geminiTools env.Tools) s) cs1 =
      (s1, .next))
    (hne : c.Content.Parts ≠ []) :
    Chat env st messages (pre ++ .response 200 body (.ok ⟨cs1 ++ c :: cs2⟩) :: rest) =
      match processParts env (s1.append (modelResponse c)) c.Content.Parts with
      | (st2, .returned e) => (st2, .returned e)
      | (st2, .next) =>
        if finishContinues c.FinishReason then
          match processCandidates env st2 cs2 with
          | (st3, .returned e) => (st3, .returned e)
          | (st3, .next) => chatLoop env (chatURL st.g) (geminiTools env.Tools) st3 rest
        else (st2, .returned none) := by
  rw [Chat_append env st messages pre _ s hreach,
    chatLoop_response env _ _ s body ⟨cs1 ++ c :: cs2⟩ rest (by simp)]
  simp only
  rw [processCandidates_append_next env (c :: cs2) cs1 _ s1 hcs1,
    processCandidates_cons env s1 c cs2 hne]
  rcases processParts env (s1.append (modelResponse c)) c.Content.Parts with ⟨st2, fl⟩
  cases fl with
  | returned e => rfl
  | next =>
    by_cases hf : finishContinues c.FinishReason = true
    · simp only [hf, if_true]
    · simp only [hf]
      rfl

theorem wrap_unmarshal_ne_not_found (m name : String) :
    GoError.wrap .ErrInvalidResponse ("failed to unmarshal response: " ++ m) ≠
      GoError.wrap .ErrInvalidResponse ("tool " ++ name ++ " not found") := by
  intro h
  have h1 := congrArg (fun e => e.msg.data) h
  simp only [GoError.wrap, String.data_append, List.append_assoc] at h1
  have h2 := List.append_cancel_left h1
  have h3 := List.append_cancel_left h2
  simp at h3

theorem chatLoop_outcome (env : Env) (url : String) (gts : List Tool) (script : List RoundTrip) :
    ∀ st : State,
      (chatLoop env url gts st script).2 = .awaitingReply ∨
      (chatLoop env url gts st script).2 = .returned none ∨
      (∃ m, (chatLoop env url gts st script).2 = .returned (some (GoError.wrap .ErrLLMAPI m))) ∨
      (∃ m, (chatLoop env url gts st script).2 =
        .returned (some (GoError.wrap .ErrInvalidResponse ("failed to unmarshal response: " ++ m)))) := by
  induction script with
  | nil => intro st; simp [chatLoop]
  | cons rt script ih =>
    intro st
    cases rt with
    | marshalError m => exact Or.inr (Or.inr (Or.inl ⟨_, rfl⟩))
    | newRequestError m => exact Or.inr (Or.inr (Or.inl ⟨_, rfl⟩))
    | sendError m => exact Or.inr (Or.inr (Or.inl ⟨_, rfl⟩))
    | readError m => exact Or.inr (Or.inr (Or.inl ⟨_, rfl⟩))
    | response status body parsed =>
      by_cases hs : status = 200
      · subst hs
        cases parsed with
        | error m => exact Or.inr (Or.inr (Or.inr ⟨m, rfl⟩))
        | ok resp =>
          by_cases hne : resp.Candidates = []
          · right; left; simp [chatLoop, hne]
          · rw [chatLoop_response env url gts st body resp script hne]
            obtain ⟨_, _, _, _, _, _, hfl⟩ :=
              processCandidates_effect env resp.Candidates (sendRequest url gts st)
            rcases hpc : processCandidates env (sendRequest url gts st) resp.Candidates
              with ⟨st2, fl⟩
            rw [hpc] at hfl
            simp only at hfl
            rcases hfl with h | h
            · subst h; exact ih st2
            · subst h; right; left; rfl
      · right; right; left
        exact ⟨_, by simp [chatLoop, hs]; rfl⟩

end llm

/-! ## The history invariant of `Chat` -/

namespace llm

/-- The invariant has content: a history that ends in a model turn with a function call and
no function response after it is not settled. -/
theorem not_settled_unanswered_call : ¬ Settled [] [⟨"model", [bashCall]⟩] := by
  rintro ⟨blocks, hflat, hall⟩
  cases blocks with
  | nil => simp at hflat
  | cons blk rest =>
    obtain ⟨turn, rs, _, hr, hblk⟩ := hall blk (List.mem_cons_self _ _)
    subst hblk
    simp only [List.nil_append, List.flatten_cons, List.cons_append, List.append_assoc] at hflat
    injection hflat with hturn htail
    subst hturn
    have hrs : rs = [] := by
      cases rs with
      | nil => rfl
      | cons r rs => simp at htail
    subst hrs
    have hcalls : dispatchedCalls (handledParts [bashCall]) =
        [⟨"bash", some [("command", .str "ls")]⟩] := by decide
    rw [hcalls] at hr
    cases hr

/-- C1 (as amended): at every request `Chat` sends, and when it stops, the history is the
starting history, the caller's messages, and then complete turn blocks: every appended model
turn is followed at once by one function response per function call handled in it (a part with
empty text and a call, placed before the first empty part of the turn), carrying the name of
that call, in call order, and by the placeholder when the turn has an empty part. -/
theorem Chat_history_settled (env : Env) (st : State) (messages : List Message)
    (script : List RoundTrip) :
    ∃ evs, (Chat env st messages script).1.w.trace = st.w.trace ++ evs ∧
      ∀ snap ∈ requestsOf evs ++ [(Chat env st messages script).1.g.conversationHistory],
        Settled (st.g.conversationHistory ++ messages.map messageContent) snap := by
  rw [Chat_eq_chatLoop]
  exact chatLoop_settled env _ _ _ script _ (Settled.refl _)

/-- C1 fails as stated: a function call that comes after an empty part is appended to history
with its model turn, `Chat` returns, and no function response was appended for it. -/
theorem Chat_call_after_empty_part_unanswered :
    (Chat sampleEnv sampleState [⟨"user", "hi"⟩]
        [.response 200 "" (.ok ⟨[⟨⟨"model", [emptyPart, bashCall]⟩, "STOP"⟩]⟩)]).2 =
      .returned none ∧
    (Chat sampleEnv sampleState [⟨"user", "hi"⟩]
        [.response 200 "" (.ok ⟨[⟨⟨"model", [emptyPart, bashCall]⟩, "STOP"⟩]⟩)]).1.g.conversationHistory =
      [⟨"user", [⟨"hi", none, none⟩]⟩, ⟨"model", [emptyPart, bashCall]⟩, placeholderMessage] ∧
    bashCall.FunctionCall = some ⟨"bash", some [("command", .str "ls")]⟩ ∧
    ∀ m ∈ (Chat sampleEnv sampleState [⟨"user", "hi"⟩]
        [.response 200 "" (.ok ⟨[⟨⟨"model", [emptyPart, bashCall]⟩, "STOP"⟩]⟩)]).1.g.conversationHistory,
      ∀ p ∈ m.Parts, p.FunctionResponse = none := by
  decide

/-! ## The finish signal -/

/-- C2, the code at the failing input: after a turn made of one text part with finish signal
`STOP`, `Chat` has not returned and stands at the top of the loop; when the script goes on,
a second request is sent, carrying the model's text turn. -/
theorem Chat_text_only_stop_requests_again :
    Chat sampleEnv sampleState [⟨"user", "hi"⟩]
        [.response 200 "" (.ok ⟨[⟨⟨"model", [⟨"hello", none, none⟩]⟩, "STOP"⟩]⟩)] =
      (⟨⟨"key", "gemini-1.5-pro", "https://example.test",
          [⟨"user", [⟨"hi", none, none⟩]⟩, ⟨"model", [⟨"hello", none, none⟩]⟩]⟩,
        ⟨[.request sampleURL (requestPayload [⟨"user", [⟨"hi", none, none⟩]⟩] []),
          .emit "hello"], 0, 0⟩⟩, .awaitingReply) ∧
    requestsOf (Chat sampleEnv sampleState [⟨"user", "hi"⟩]
        [.response 200 "" (.ok ⟨[⟨⟨"model", [⟨"hello", none, none⟩]⟩, "STOP"⟩]⟩),
         .response 200 "" (.ok ⟨[]⟩)]).1.w.trace =
      [[⟨"user", [⟨"hi", none, none⟩]⟩],
       [⟨"user", [⟨"hi", none, none⟩]⟩, ⟨"model", [⟨"hello", none, none⟩]⟩]] := by
  decide

/-- C3 fails as stated: after a response whose only candidate has zero parts `Chat` has not
returned; with a further scripted reply it sends a second request, with the same history. -/
theorem Chat_candidate_without_parts_requests_again :
    (Chat sampleEnv sampleState [⟨"user", "hi"⟩]
        [.response 200 "" (.ok ⟨[⟨⟨"model", []⟩, "STOP"⟩]⟩)]).2 = .awaitingReply ∧
    requestsOf (Chat sampleEnv sampleState [⟨"user", "hi"⟩]
        [.response 200 "" (.ok ⟨[⟨⟨"model", []⟩, "STOP"⟩]⟩),
         .response 200 "" (.ok ⟨[]⟩)]).1.w.trace =
      [[⟨"user", [⟨"hi", none, none⟩]⟩], [⟨"user", [⟨"hi", none, none⟩]⟩]] := by
  decide

theorem processCandidates_skip_middle (env : Env) (c : Candidate) (cs2 : List Candidate)
    (hc : c.Content.Parts = []) : ∀ (cs1 : List Candidate) (st : State),
    processCandidates env st (cs1 ++ c :: cs2) = processCandidates env st (cs1 ++ cs2) := by
  intro cs1
  induction cs1 with
  | nil => intro st; exact processCandidates_cons_skip env st c cs2 hc
  | cons d cs1 ih =>
    intro st
    by_cases hd : d.Content.Parts = []
    · rw [List.cons_append, List.cons_append, processCandidates_cons_skip env st d _ hd,
        processCandidates_cons_skip env st d _ hd]
      exact ih st
    · rw [List.cons_append, List.cons_append, processCandidates_cons env st d _ hd,
        processCandidates_cons env st d _ hd]
      rcases processParts env (st.append (modelResponse d)) d.Content.Parts with ⟨st2, fl⟩
      cases fl with
      | returned e => rfl
      | next => simp only [ih st2]

theorem processCandidates_all_without_parts (env : Env) (st : State) :
    ∀ cs : List Candidate, (∀ d ∈ cs, d.Content.Parts = []) →
      processCandidates env st cs = (st, .next) := by
  intro cs
  induction cs with
  | nil => intro _; rfl
  | cons d cs ih =>
    intro h
    rw [processCandidates_cons_skip env st d cs (h d (List.mem_cons_self _ _))]
    exact ih (fun x hx => h x (List.mem_cons_of_mem _ hx))

/-- C3 (as amended): a candidate with zero parts is skipped. When the response has another
candidate, `Chat` behaves exactly as if the candidate were absent from the response, so nothing
is appended for it; when every candidate of the response has zero parts, `Chat` stands at the
top of the loop again with the history unchanged, the request of this round being the only
new event. -/
theorem Chat_skips_candidate_without_parts (env : Env) (st : State) (messages : List Message)
    (pre : List RoundTrip) (s : State) (body : String) (cs1 : List Candidate) (c : Candidate)
    (cs2 : List Candidate)
    (hreach : Chat env st messages pre = (s, .awaitingReply))
    (hc : c.Content.Parts = []) :
    (cs1 ++ cs2 ≠ [] → ∀ rest : List RoundTrip,
      Chat env st messages (pre ++ .response 200 body (.ok ⟨cs1 ++ c :: cs2⟩) :: rest) =
        Chat env st messages (pre ++ .response 200 body (.ok ⟨cs1 ++ cs2⟩) :: rest)) ∧
    ((∀ d ∈ cs1 ++ cs2, d.Content.Parts = []) →
      Chat env st messages (pre ++ [.response 200 body (.ok ⟨cs1 ++ c :: cs2⟩)]) =
        (⟨s.g, ⟨s.w.trace ++ [.request (chatURL st.g)
            (requestPayload s.g.conversationHistory (geminiTools env.Tools))],
          s.w.reads, s.w.invocations⟩⟩, .awaitingReply)) := by
  constructor
  · intro hne rest
    rw [Chat_append env st messages pre _ s hreach, Chat_append env st messages pre _ s hreach,
      chatLoop_response env _ _ s body ⟨cs1 ++ c :: cs2⟩ rest (by simp),
      chatLoop_response env _ _ s body ⟨cs1 ++ cs2⟩ rest hne]
    simp only
    rw [processCandidates_skip_middle env c cs2 hc cs1]
  · intro hall
    rw [Chat_append env st messages pre _ s hreach,
      chatLoop_response env _ _ s body ⟨cs1 ++ c :: cs2⟩ [] (by simp)]
    simp only
    rw [processCandidates_skip_middle env c cs2 hc cs1,
      processCandidates_all_without_parts env _ (cs1 ++ cs2) hall]
    rfl

/-- Instance of C3 (as amended): a zero-part candidate in front of a text candidate. -/
theorem Chat_skips_candidate_without_parts_witness :
    Chat sampleEnv sampleState [⟨"user", "hi"⟩] [] = (sampleReached, .awaitingReply) ∧
    (⟨⟨"model", []⟩, "STOP"⟩ : Candidate).Content.Parts = [] ∧
    Chat sampleEnv sampleState [⟨"user", "hi"⟩]
        ([] ++ .response 200 "" (.ok ⟨[] ++ ⟨⟨"model", []⟩, "STOP"⟩ ::
          [⟨⟨"model", [⟨"hello", none, none⟩]⟩, "OTHER"⟩]⟩) :: []) =
      Chat sampleEnv sampleState [⟨"user", "hi"⟩]
        ([] ++ .response 200 "" (.ok ⟨[] ++
          [⟨⟨"model", [⟨"hello", none, none⟩]⟩, "OTHER"⟩]⟩) :: []) :=
  ⟨by decide, rfl,
    (Chat_skips_candidate_without_parts sampleEnv sampleState [⟨"user", "hi"⟩] [] sampleReached ""
      [] ⟨⟨"model", []⟩, "STOP"⟩ [⟨⟨"model", [⟨"hello", none, none⟩]⟩, "OTHER"⟩]
      (by decide) rfl).1 (by decide) []⟩

/-- C4: when the reply to a request is a parsed response with an empty candidate list, `Chat`
returns nil; the only new event is that request, which carried the history, and the session
is otherwise as it was, so no further request is issued whatever the script holds next. -/
theorem Chat_empty_candidate_list (env : Env) (st : State) (messages : List Message)
    (pre : List RoundTrip) (s : State) (body : String) (rest : List RoundTrip)
    (hreach : Chat env st messages pre = (s, .awaitingReply)) :
    ∃ payload : GeminiRequest, payload.Contents = s.g.conversationHistory ∧
      Chat env st messages (pre ++ .response 200 body (.ok ⟨[]⟩) :: rest) =
        (⟨s.g, ⟨s.w.trace ++ [.request (chatURL st.g) payload], s.w.reads, s.w.invocations⟩⟩,
          .returned none) := by
  refine ⟨requestPayload s.g.conversationHistory (geminiTools env.Tools), rfl, ?_⟩
  rw [Chat_append env st messages pre _ s hreach]
  simp [chatLoop, sendRequest, State.log, World.log]

/-- Instance of C4: the first reply has no candidates, a second reply is scripted but unused. -/
theorem Chat_empty_candidate_list_witness :
    Chat sampleEnv sampleState [⟨"user", "hi"⟩] [] = (sampleReached, .awaitingReply) ∧
    ∃ payload : GeminiRequest, payload.Contents = sampleReached.g.conversationHistory ∧
      Chat sampleEnv sampleState [⟨"user", "hi"⟩]
          ([] ++ .response 200 "" (.ok ⟨[]⟩) :: [.sendError "unused"]) =
        (⟨sampleReached.g, ⟨sampleReached.w.trace ++ [.request (chatURL sampleState.g) payload],
          sampleReached.w.reads, sampleReached.w.invocations⟩⟩, .returned none) :=
  ⟨by decide, Chat_empty_candidate_list sampleEnv sampleState [⟨"user", "hi"⟩] [] sampleReached ""
    [.sendError "unused"] (by decide)⟩

theorem not_placeholder_of_response {fc : FunctionCall} {m : Content}
    (h : IsFunctionResponseFor fc m) : m ≠ placeholderMessage := by
  obtain ⟨payload, rfl⟩ := h
  simp [functionResponseMessage, placeholderMessage]

theorem forall₂_right_mem {α β : Type} {R : α → β → Prop} {l₁ : List α} {l₂ : List β}
    (h : List.Forall₂ R l₁ l₂) : ∀ b ∈ l₂, ∃ a, R a b := by
  induction h with
  | nil => intro b hb; simp at hb
  | cons hab _ ih =>
    intro b hb
    rcases List.mem_cons.mp hb with h | h
    · subst h; exact ⟨_, hab⟩
    · exact ih b h

/-- C5 fails as stated: a part that carries a text and a function call is rendered as text,
so for a candidate made of such a part, with finish signal `SAFETY`, `Chat` returns nil with
the model turn appended and no function response for the call. -/
theorem Chat_text_and_call_part_gets_no_response :
    Chat sampleEnv sampleState [⟨"user", "hi"⟩]
        [.response 200 "" (.ok ⟨[textAndCallCandidate]⟩)] =
      (⟨⟨"key", "gemini-1.5-pro", "https://example.test",
          [⟨"user", [⟨"hi", none, none⟩]⟩, ⟨"model", [textAndCallPart]⟩]⟩,
        ⟨[.request sampleURL (requestPayload [⟨"user", [⟨"hi", none, none⟩]⟩] []),
          .emit "note"], 0, 0⟩⟩, .returned none) ∧
    textAndCallPart.Text ≠ "" ∧
    textAndCallPart.FunctionCall = some ⟨"bash", some [("command", .str "ls")]⟩ ∧
    textAndCallCandidate.FinishReason ≠ "STOP" := by
  decide

/-- C5 (as amended): when `Chat` reaches a candidate with at least one part, each of them a
non-empty text or a function call, whose finish signal is not `STOP`, it returns nil once the
parts are processed: the history grows by the model turn followed by one function response per
part that has empty text and a function call, in call order, none of them the placeholder (a
part with non-empty text is rendered as text, also when it carries a call, and gets no
response), and no request is sent, whatever candidates and replies follow. -/
theorem Chat_returns_on_other_finish_signal (env : Env) (st : State) (messages : List Message)
    (pre : List RoundTrip) (s s1 : State) (body : String) (cs1 : List Candidate) (c : Candidate)
    (cs2 : List Candidate) (rest : List RoundTrip)
    (hreach : Chat env st messages pre = (s, .awaitingReply))
    (hcs1 : processCandidates env (sendRequest (chatURL st.g) (geminiTools env.Tools) s) cs1 =
      (s1, .next))
    (hne : c.Content.Parts ≠ [])
    (hwf : ∀ p ∈ c.Content.Parts, p.Text ≠ "" ∨ p.FunctionCall ≠ none)
    (hfin : c.FinishReason ≠ "STOP") :
    ∃ (fin : State) (rs : List Content) (evs : List Event),
      Chat env st messages (pre ++ .response 200 body (.ok ⟨cs1 ++ c :: cs2⟩) :: rest) =
        (fin, .returned none) ∧
      fin.g.conversationHistory = s1.g.conversationHistory ++ modelResponse c :: rs ∧
      List.Forall₂ IsFunctionResponseFor (dispatchedCalls c.Content.Parts) rs ∧
      placeholderMessage ∉ rs ∧
      fin.w.trace = s1.w.trace ++ evs ∧
      requestsOf evs = [] := by
  obtain ⟨s2, rs, evs, hpp, hh, hr, htr, _, hrq⟩ :=
    processParts_wellFormed env (s1.append (modelResponse c)) c.Content.Parts hwf
  have hf : finishContinues c.FinishReason = false := by
    cases hfc : finishContinues c.FinishReason with
    | false => rfl
    | true => exact absurd ((finishContinues_iff _).mp hfc) hfin
  refine ⟨s2, rs, evs, ?_, ?_, hr, ?_, ?_, hrq⟩
  · rw [Chat_at_candidate env st messages pre s s1 body cs1 c cs2 rest hreach hcs1 hne, hpp]
    simp [hf]
  · simpa using hh
  · intro hmem
    obtain ⟨fc, hfc⟩ := forall₂_right_mem hr _ hmem
    exact not_placeholder_of_response hfc rfl
  · simpa using htr

/-- Instance of C5: a note and a call of `bash` with finish signal `SAFETY`. -/
theorem Chat_returns_on_other_finish_signal_witness :
    Chat yesEnv sampleState [⟨"user", "hi"⟩] [] = (sampleReached, .awaitingReply) ∧
    safetyCandidate.FinishReason ≠ "STOP" ∧
    ∃ (fin : State) (rs : List Content) (evs : List Event),
      Chat yesEnv sampleState [⟨"user", "hi"⟩]
          ([] ++ .response 200 "" (.ok ⟨[] ++ safetyCandidate :: []⟩) :: [.sendError "unused"]) =
        (fin, .returned none) ∧
      fin.g.conversationHistory =
        sampleSent.g.conversationHistory ++ modelResponse safetyCandidate :: rs ∧
      List.Forall₂ IsFunctionResponseFor (dispatchedCalls safetyCandidate.Content.Parts) rs ∧
      placeholderMessage ∉ rs ∧
      fin.w.trace = sampleSent.w.trace ++ evs ∧
      requestsOf evs = [] :=
  ⟨by decide, by decide,
    Chat_returns_on_other_finish_signal yesEnv sampleState [⟨"user", "hi"⟩] [] sampleReached
      sampleSent "" [] safetyCandidate [] [.sendError "unused"] (by decide) (by decide)
      (by decide) (by decide) (by decide)⟩

/-- C6: when `Chat` reaches, after parts that are not empty, a part with empty text and no
function call, it appends one message, of role `model` with the single text part
"I received an unexpected response. Let's try again.", to the session left by the earlier
parts, changes nothing else, and returns nil, whatever parts, candidates and replies follow. -/
theorem Chat_placeholder_on_empty_part (env : Env) (st : State) (messages : List Message)
    (pre : List RoundTrip) (s s1 : State) (body : String) (cs1 : List Candidate) (c : Candidate)
    (cs2 : List Candidate) (rest : List RoundTrip) (ps : List Part) (p : Part) (qs : List Part)
    (hreach : Chat env st messages pre = (s, .awaitingReply))
    (hcs1 : processCandidates env (sendRequest (chatURL st.g) (geminiTools env.Tools) s) cs1 =
      (s1, .next))
    (hparts : c.Content.Parts = ps ++ p :: qs)
    (hps : ∀ x ∈ ps, x.Text ≠ "" ∨ x.FunctionCall ≠ none)
    (ht : p.Text = "") (hc : p.FunctionCall = none) :
    ∃ s2 : State, processParts env (s1.append (modelResponse c)) ps = (s2, .next) ∧
      Chat env st messages (pre ++ .response 200 body (.ok ⟨cs1 ++ c :: cs2⟩) :: rest) =
        (⟨{ s2.g with conversationHistory := s2.g.conversationHistory ++
            [⟨"model", [⟨"I received an unexpected response. Let's try again.", none, none⟩]⟩] },
          s2.w⟩, .returned none) := by
  obtain ⟨s2, _, _, hpp, _⟩ := processParts_wellFormed env (s1.append (modelResponse c)) ps hps
  refine ⟨s2, hpp, ?_⟩
  have hne : c.Content.Parts ≠ [] := by rw [hparts]; simp
  rw [Chat_at_candidate env st messages pre s s1 body cs1 c cs2 rest hreach hcs1 hne, hparts,
    processParts_append_next env (p :: qs) ps _ s2 hpp, processParts_cons_empty env s2 p qs ht hc]
  rfl

/-- Instance of C6: the empty part sits between a note and a call of `bash`. -/
theorem Chat_placeholder_on_empty_part_witness :
    Chat yesEnv sampleState [⟨"user", "hi"⟩] [] = (sampleReached, .awaitingReply) ∧
    brokenCandidate.Content.Parts = [⟨"note", none, none⟩] ++ emptyPart :: [bashCall] ∧
    ∃ s2 : State,
      processParts yesEnv (sampleSent.append (modelResponse brokenCandidate))
        [⟨"note", none, none⟩] = (s2, .next) ∧
      Chat yesEnv sampleState [⟨"user", "hi"⟩]
          ([] ++ .response 200 "" (.ok ⟨[] ++ brokenCandidate :: []⟩) :: [.sendError "unused"]) =
        (⟨{ s2.g with conversationHistory := s2.g.conversationHistory ++
            [⟨"model", [⟨"I received an unexpected response. Let's try again.", none, none⟩]⟩] },
          s2.w⟩, .returned none) :=
  ⟨by decide, by decide,
    Chat_placeholder_on_empty_part yesEnv sampleState [⟨"user", "hi"⟩] [] sampleReached
      sampleSent "" [] brokenCandidate [] [.sendError "unused"] [⟨"note", none, none⟩] emptyPart
      [bashCall] (by decide) (by decide) (by decide) (by decide) (by decide) (by decide)⟩

/-- C7 fails as stated: in a turn whose first part carries a text and a call of `bash` and whose
second part is a call of `foo`, the first part is emitted as text and its call is neither
dispatched nor answered; only `foo` is dispatched and gets a function response, and the next
request would carry the turn with the unanswered call. -/
theorem Chat_call_with_text_not_dispatched :
    Chat sampleEnv sampleState [⟨"user", "hi"⟩]
        [.response 200 "" (.ok ⟨[shadowedCallCandidate]⟩)] =
      (⟨⟨"key", "gemini-1.5-pro", "https://example.test",
          [⟨"user", [⟨"hi", none, none⟩]⟩, ⟨"model", [textAndCallPart, fooCall]⟩,
           ⟨"model", [⟨"", none, some ⟨"foo",
              some [("error", .str "Tool not found: foo")]⟩⟩]⟩]⟩,
        ⟨[.request sampleURL (requestPayload [⟨"user", [⟨"hi", none, none⟩]⟩] []),
          .emit "note", .dispatch "foo" none], 0, 0⟩⟩, .awaitingReply) ∧
    textAndCallPart.FunctionCall = some ⟨"bash", some [("command", .str "ls")]⟩ := by
  decide

/-- C7 (as amended): when `Chat` reaches a candidate with at least one part, each of them a
non-empty text or a function call, then in every continuation of the run the emit and dispatch
events of the turn are those of its parts, in part order: a part with non-empty text is
emitted, also when it carries a call, and a part with empty text and a call is dispatched; the
history holds the model turn followed by one function response per part with empty text and a
call, in call order; and every request sent afterwards carries all of them. -/
theorem Chat_handles_parts_in_order (env : Env) (st : State) (messages : List Message)
    (pre : List RoundTrip) (s s1 : State) (body : String) (cs1 : List Candidate) (c : Candidate)
    (cs2 : List Candidate)
    (hreach : Chat env st messages pre = (s, .awaitingReply))
    (hcs1 : processCandidates env (sendRequest (chatURL st.g) (geminiTools env.Tools) s) cs1 =
      (s1, .next))
    (hne : c.Content.Parts ≠ [])
    (hwf : ∀ p ∈ c.Content.Parts, p.Text ≠ "" ∨ p.FunctionCall ≠ none) :
    ∃ rs : List Content,
      List.Forall₂ IsFunctionResponseFor (dispatchedCalls c.Content.Parts) rs ∧
      ∀ rest : List RoundTrip, ∃ (hs : List Content) (evs tl : List Event),
        (Chat env st messages
          (pre ++ .response 200 body (.ok ⟨cs1 ++ c :: cs2⟩) :: rest)).1.g.conversationHistory =
          s1.g.conversationHistory ++ modelResponse c :: rs ++ hs ∧
        (Chat env st messages
          (pre ++ .response 200 body (.ok ⟨cs1 ++ c :: cs2⟩) :: rest)).1.w.trace =
          s1.w.trace ++ evs ∧
        partEvents evs = c.Content.Parts.flatMap Part.effect ++ tl ∧
        ∀ snap ∈ requestsOf evs,
          ∃ t, snap = s1.g.conversationHistory ++ modelResponse c :: rs ++ t := by
  obtain ⟨s2, rs, evs, hpp, hh, hr, htr, hpe, hrq⟩ :=
    processParts_wellFormed env (s1.append (modelResponse c)) c.Content.Parts hwf
  simp only [State.append_history, State.append_w] at hh htr
  refine ⟨rs, hr, ?_⟩
  intro rest
  rw [Chat_at_candidate env st messages pre s s1 body cs1 c cs2 rest hreach hcs1 hne, hpp]
  simp only
  by_cases hf : finishContinues c.FinishReason = true
  · simp only [hf, if_true]
    obtain ⟨hs2, evs2, hh2, htr2, hall2⟩ :=
      response_tail_grows env (chatURL st.g) (geminiTools env.Tools) s2 cs2 rest
    refine ⟨hs2, evs ++ evs2, partEvents evs2, ?_, ?_, ?_, ?_⟩
    · rw [hh2, hh]; simp
    · rw [htr2, htr]; simp
    · rw [partEvents_append, hpe]
    · intro snap hsnap
      rw [requestsOf_append, hrq, List.nil_append] at hsnap
      obtain ⟨t, ht⟩ := hall2 snap hsnap
      exact ⟨t, by rw [ht, hh]; simp⟩
  · simp only [hf]
    refine ⟨[], evs, [], ?_, ?_, ?_, ?_⟩
    · simp [hh]
    · simp [htr]
    · simp [hpe]
    · intro snap hsnap
      rw [hrq] at hsnap
      simp at hsnap

/-- Instance of C7: a call of `bash`, a text, and a call of an unregistered tool. -/
theorem Chat_handles_parts_in_order_witness :
    Chat yesEnv sampleState [⟨"user", "hi"⟩] [] = (sampleReached, .awaitingReply) ∧
    ∃ rs : List Content,
      List.Forall₂ IsFunctionResponseFor (dispatchedCalls mixedCandidate.Content.Parts) rs ∧
      ∀ rest : List RoundTrip, ∃ (hs : List Content) (evs tl : List Event),
        (Chat yesEnv sampleState [⟨"user", "hi"⟩]
          ([] ++ .response 200 "" (.ok ⟨[] ++ mixedCandidate :: []⟩) :: rest)).1.g.conversationHistory =
          sampleSent.g.conversationHistory ++ modelResponse mixedCandidate :: rs ++ hs ∧
        (Chat yesEnv sampleState [⟨"user", "hi"⟩]
          ([] ++ .response 200 "" (.ok ⟨[] ++ mixedCandidate :: []⟩) :: rest)).1.w.trace =
          sampleSent.w.trace ++ evs ∧
        partEvents evs = mixedCandidate.Content.Parts.flatMap Part.effect ++ tl ∧
        ∀ snap ∈ requestsOf evs,
          ∃ t, snap = sampleSent.g.conversationHistory ++ modelResponse mixedCandidate :: rs ++ t :=
  ⟨by decide,
    Chat_handles_parts_in_order yesEnv sampleState [⟨"user", "hi"⟩] [] sampleReached sampleSent ""
      [] mixedCandidate [] (by decide) (by decide) (by decide) (by decide)⟩

end llm

/-! ## Tool dispatch -/

namespace llm

/-- C8: for a function call whose name is not a key of `AvailableTools`, `handleFunctionCall`
appends one function-response message with that name and the payload
`"error": "Tool not found: " + name`, records the dispatch and nothing else (no prompt, no tool
invocation) and returns the lookup error; the part loop drops that error and goes on with the
remaining parts; and no run of `Chat` returns it. -/
theorem handleFunctionCall_unknown_tool (env : Env) (st : State) (fc : FunctionCall)
    (hl : env.AvailableTools.lookup fc.Name = none) :
    handleFunctionCall env st fc =
      (⟨{ st.g with conversationHistory := st.g.conversationHistory ++
            [⟨"model", [⟨"", none,
              some ⟨fc.Name, some [("error", .str ("Tool not found: " ++ fc.Name))]⟩⟩]⟩] },
          ⟨st.w.trace ++ [.dispatch fc.Name fc.Args], st.w.reads, st.w.invocations⟩⟩,
        some (GoError.wrap .ErrInvalidResponse ("tool " ++ fc.Name ++ " not found"))) ∧
    (∀ (p : Part) (ps : List Part), p.Text = "" → p.FunctionCall = some fc →
      processParts env st (p :: ps) = processParts env (handleFunctionCall env st fc).1 ps) ∧
    (∀ (st0 : State) (messages : List Message) (script : List RoundTrip),
      (Chat env st0 messages script).2 ≠
        .returned (some (GoError.wrap .ErrInvalidResponse ("tool " ++ fc.Name ++ " not found")))) := by
  refine ⟨?_, ?_, ?_⟩
  · simp [handleFunctionCall, hl, State.append, State.log, World.log, functionResponseMessage]
  · intro p ps ht hc
    exact processParts_cons_call env st p ps fc ht hc
  · intro st0 messages script heq
    rw [Chat_eq_chatLoop] at heq
    rcases chatLoop_outcome env _ _ script _ with h | h | ⟨m, h⟩ | ⟨m, h⟩
    · rw [h] at heq; cases heq
    · rw [h] at heq; cases heq
    · rw [h] at heq
      injection heq with h1
      injection h1 with h2
      have := congrArg GoError.wraps h2
      simp [GoError.wrap] at this
    · rw [h] at heq
      injection heq with h1
      injection h1 with h2
      exact wrap_unmarshal_ne_not_found m fc.Name h2

/-- Instance of C8: the name `foo` against the sample registry. -/
theorem handleFunctionCall_unknown_tool_witness :
    sampleEnv.AvailableTools.lookup "foo" = none ∧
    handleFunctionCall sampleEnv sampleSent ⟨"foo", none⟩ =
      (⟨{ sampleSent.g with conversationHistory := sampleSent.g.conversationHistory ++
            [⟨"model", [⟨"", none,
              some ⟨"foo", some [("error", .str ("Tool not found: " ++ "foo"))]⟩⟩]⟩] },
          ⟨sampleSent.w.trace ++ [.dispatch "foo" none], sampleSent.w.reads,
            sampleSent.w.invocations⟩⟩,
        some (GoError.wrap .ErrInvalidResponse ("tool " ++ "foo" ++ " not found"))) :=
  ⟨rfl, (handleFunctionCall_unknown_tool sampleEnv sampleSent ⟨"foo", none⟩ rfl).1⟩

/-- C9: for a name registered with the tool function `toolFunc`, let `r` be what the gated
execution returns. If its error is `e`, `handleFunctionCall` appends a function response with
the payload `"error": "Error executing tool <name>: <message of e>"` and returns `e`; if it has
no error, the appended function response carries the result of `r` unchanged and nil is
returned. In both cases nothing else is appended. -/
theorem handleFunctionCall_known_tool (env : Env) (st : State) (fc : FunctionCall)
    (toolFunc : tools.ToolFunction)
    (hl : env.AvailableTools.lookup fc.Name = some toolFunc) :
    (∀ e : GoError,
      (tools.ExecuteToolWithConfirmation env (st.w.log (.dispatch fc.Name fc.Args)) fc.Name
        toolFunc fc.Args).2.err = some e →
      handleFunctionCall env st fc =
        (⟨{ st.g with conversationHistory := st.g.conversationHistory ++
              [⟨"model", [⟨"", none, some ⟨fc.Name,
                some [("error", .str ("Error executing tool " ++ fc.Name ++ ": " ++ e.msg))]⟩⟩]⟩] },
            (tools.ExecuteToolWithConfirmation env (st.w.log (.dispatch fc.Name fc.Args)) fc.Name
              toolFunc fc.Args).1⟩,
          some e)) ∧
    ((tools.ExecuteToolWithConfirmation env (st.w.log (.dispatch fc.Name fc.Args)) fc.Name
        toolFunc fc.Args).2.err = none →
      handleFunctionCall env st fc =
        (⟨{ st.g with conversationHistory := st.g.conversationHistory ++
              [⟨"model", [⟨"", none, some ⟨fc.Name,
                (tools.ExecuteToolWithConfirmation env (st.w.log (.dispatch fc.Name fc.Args))
                  fc.Name toolFunc fc.Args).2.result⟩⟩]⟩] },
            (tools.ExecuteToolWithConfirmation env (st.w.log (.dispatch fc.Name fc.Args)) fc.Name
              toolFunc fc.Args).1⟩,
          none)) := by
  constructor
  · intro e he
    simp [handleFunctionCall, hl, State.append, State.log, functionResponseMessage, he]
  · intro he
    simp [handleFunctionCall, hl, State.append, State.log, functionResponseMessage, he]

/-- Instance of C9: the tool `helm` fails after the operator agreed; the tool `bash` is
declined, which is a result without error. -/
theorem handleFunctionCall_known_tool_witness :
    handleFunctionCall yesEnv sampleSent ⟨"helm", none⟩ =
      (⟨{ sampleSent.g with conversationHistory := sampleSent.g.conversationHistory ++
            [⟨"model", [⟨"", none, some ⟨"helm", some [("error",
              .str "Error executing tool helm: failed to execute command: boom")]⟩⟩]⟩] },
          ⟨sampleSent.w.trace ++ [.dispatch "helm" none, .prompt "helm" none, .invoke "helm" none],
            1, 1⟩⟩,
        some ⟨"failed to execute command: boom", none⟩) ∧
    handleFunctionCall sampleEnv sampleSent ⟨"bash", none⟩ =
      (⟨{ sampleSent.g with conversationHistory := sampleSent.g.conversationHistory ++
            [⟨"model", [⟨"", none, some ⟨"bash",
              some [("result", .str "Tool execution cancelled by user.")]⟩⟩]⟩] },
          ⟨sampleSent.w.trace ++ [.dispatch "bash" none, .prompt "bash" none], 1, 0⟩⟩,
        none) :=
  ⟨(handleFunctionCall_known_tool yesEnv sampleSent ⟨"helm", none⟩ failingTool rfl).1
      ⟨"failed to execute command: boom", none⟩ (by decide),
    (handleFunctionCall_known_tool sampleEnv sampleSent ⟨"bash", none⟩ sampleTool rfl).2
      (by decide)⟩

end llm

/-! ## The confirmation gate -/

namespace tools

/-- C10: in safe mode, when the confirmation read returns a complete line, let `answer` be the
line trimmed of surrounding white space and lower-cased. If `answer` is `y` or `yes`, the tool
function is invoked once and its result is returned as it is; otherwise the result is
`"result": "Tool execution cancelled by user."` with a nil error and the tool function is not
invoked. Either way the prompt is shown and one line is consumed. -/
theorem ExecuteToolWithConfirmation_safe_mode (env : Env) (w : World) (name : String)
    (toolFunc : ToolFunction) (args : GoMap) (line : String)
    (hsafe : env.UnsafeMode = false)
    (hread : env.stdin w.reads = ⟨line, none⟩) :
    ((ToLower env (TrimSpace line) = "y" ∨ ToLower env (TrimSpace line) = "yes") →
      ExecuteToolWithConfirmation env w name toolFunc args =
        (⟨w.trace ++ [.prompt name args, .invoke name args], w.reads + 1, w.invocations + 1⟩,
          toolFunc w.invocations args)) ∧
    (¬(ToLower env (TrimSpace line) = "y" ∨ ToLower env (TrimSpace line) = "yes") →
      ExecuteToolWithConfirmation env w name toolFunc args =
        (⟨w.trace ++ [.prompt name args], w.reads + 1, w.invocations⟩,
          ⟨some [("result", .str "Tool execution cancelled by user.")], none⟩)) := by
  constructor
  · intro h
    have hc : ¬(ToLower env (TrimSpace line) ≠ "y" ∧ ToLower env (TrimSpace line) ≠ "yes") := by
      intro ⟨h1, h2⟩
      rcases h with h | h
      · exact h1 h
      · exact h2 h
    simp [ExecuteToolWithConfirmation, hsafe, hread, hc, invokeTool, World.log]
  · intro h
    have hc : ToLower env (TrimSpace line) ≠ "y" ∧ ToLower env (TrimSpace line) ≠ "yes" :=
      ⟨fun h1 => h (Or.inl h1), fun h2 => h (Or.inr h2)⟩
    simp [ExecuteToolWithConfirmation, hsafe, hread, hc, World.log, cancelledResult]

/-- Instance of C10: the answer ` YES ` runs the tool, the answer `n` does not. -/
theorem ExecuteToolWithConfirmation_safe_mode_witness :
    ExecuteToolWithConfirmation llm.yesEnv ⟨[], 0, 3⟩ "bash" llm.sampleTool none =
      (⟨[.prompt "bash" none, .invoke "bash" none], 1, 4⟩,
        ⟨some [("output", .str "ok"), ("exit_code", .num 3)], none⟩) ∧
    ExecuteToolWithConfirmation llm.sampleEnv ⟨[], 0, 3⟩ "bash" llm.sampleTool none =
      (⟨[.prompt "bash" none], 1, 3⟩,
        ⟨some [("result", .str "Tool execution cancelled by user.")], none⟩) :=
  ⟨(ExecuteToolWithConfirmation_safe_mode llm.yesEnv ⟨[], 0, 3⟩ "bash" llm.sampleTool none
      " YES \r\n" rfl rfl).1 (by decide),
    (ExecuteToolWithConfirmation_safe_mode llm.sampleEnv ⟨[], 0, 3⟩ "bash" llm.sampleTool none
      "n\n" rfl rfl).2 (by decide)⟩

end tools

/-! ## The confirmation read fails; unsafe mode -/

namespace llm

/-- C11 fails as stated: at end of input the call of `bash` is not executed, but the function
response recorded for it is an error payload, not the cancellation payload, and
`handleFunctionCall` returns an error. -/
theorem handleFunctionCall_end_of_input_records_error :
    handleFunctionCall eofEnv sampleSent ⟨"bash", none⟩ =
      (⟨{ sampleSent.g with conversationHistory := sampleSent.g.conversationHistory ++
            [⟨"model", [⟨"", none, some ⟨"bash", some [("error",
              .str "Error executing tool bash: failed to read confirmation: EOF")]⟩⟩]⟩] },
          ⟨sampleSent.w.trace ++ [.dispatch "bash" none, .prompt "bash" none], 1, 0⟩⟩,
        some ⟨"failed to read confirmation: EOF", none⟩) ∧
    (tools.ExecuteToolWithConfirmation eofEnv sampleSent.w "bash" sampleTool none).2 ≠
      ⟨some [("result", .str "Tool execution cancelled by user.")], none⟩ := by
  decide

/-- C11 (as amended): in safe mode, when the confirmation read returns an error `e` (end of
input included, whatever was read before it), the gate shows the prompt, consumes the read,
does not invoke the tool function and returns a nil result with the error
"failed to read confirmation: <message of e>"; for a registered tool `handleFunctionCall` then
records the function response `"error": "Error executing tool <name>: failed to read
confirmation: <message of e>"` and returns that error. -/
theorem handleFunctionCall_confirmation_read_error (env : Env) (st : State) (fc : FunctionCall)
    (toolFunc : tools.ToolFunction) (data : String) (e : GoError)
    (hsafe : env.UnsafeMode = false)
    (hl : env.AvailableTools.lookup fc.Name = some toolFunc)
    (hread : env.stdin st.w.reads = ⟨data, some e⟩) :
    tools.ExecuteToolWithConfirmation env st.w fc.Name toolFunc fc.Args =
      (⟨st.w.trace ++ [.prompt fc.Name fc.Args], st.w.reads + 1, st.w.invocations⟩,
        ⟨none, some ⟨"failed to read confirmation: " ++ e.msg, none⟩⟩) ∧
    handleFunctionCall env st fc =
      (⟨{ st.g with conversationHistory := st.g.conversationHistory ++
            [⟨"model", [⟨"", none, some ⟨fc.Name, some [("error",
              .str ("Error executing tool " ++ fc.Name ++ ": " ++
                ("failed to read confirmation: " ++ e.msg)))]⟩⟩]⟩] },
          ⟨st.w.trace ++ [.dispatch fc.Name fc.Args, .prompt fc.Name fc.Args],
            st.w.reads + 1, st.w.invocations⟩⟩,
        some ⟨"failed to read confirmation: " ++ e.msg, none⟩) := by
  constructor
  · simp [tools.ExecuteToolWithConfirmation, hsafe, hread, World.log]
  · simp [handleFunctionCall, hl, tools.ExecuteToolWithConfirmation, hsafe, hread, World.log,
      State.log, State.append, functionResponseMessage]

/-- Instance of C11 (as amended): end of input while `bash` awaits confirmation. -/
theorem handleFunctionCall_confirmation_read_error_witness :
    eofEnv.UnsafeMode = false ∧
    eofEnv.stdin sampleSent.w.reads = ⟨"", some ⟨"EOF", none⟩⟩ ∧
    handleFunctionCall eofEnv sampleSent ⟨"bash", none⟩ =
      (⟨{ sampleSent.g with conversationHistory := sampleSent.g.conversationHistory ++
            [⟨"model", [⟨"", none, some ⟨"bash", some [("error",
              .str ("Error executing tool " ++ "bash" ++ ": " ++
                ("failed to read confirmation: " ++ "EOF")))]⟩⟩]⟩] },
          ⟨sampleSent.w.trace ++ [.dispatch "bash" none, .prompt "bash" none],
            sampleSent.w.reads + 1, sampleSent.w.invocations⟩⟩,
        some ⟨"failed to read confirmation: " ++ "EOF", none⟩) :=
  ⟨rfl, rfl,
    (handleFunctionCall_confirmation_read_error eofEnv sampleSent ⟨"bash", none⟩ sampleTool ""
      ⟨"EOF", none⟩ rfl rfl rfl).2⟩

end llm

namespace tools

/-- C12: in unsafe mode the gate shows no prompt and consumes no operator input; it invokes
the tool function once, with the arguments it was given, and returns the pair of result and
error of that invocation as it is. -/
theorem ExecuteToolWithConfirmation_unsafe_mode (env : Env) (w : World) (name : String)
    (toolFunc : ToolFunction) (args : GoMap) (hmode : env.UnsafeMode = true) :
    ExecuteToolWithConfirmation env w name toolFunc args =
      (⟨w.trace ++ [.invoke name args], w.reads, w.invocations + 1⟩,
        toolFunc w.invocations args) := by
  simp [ExecuteToolWithConfirmation, hmode, invokeTool, World.log]

/-- Instance of C12: the sample tool in unsafe mode, after three earlier invocations. -/
theorem ExecuteToolWithConfirmation_unsafe_mode_witness :
    llm.unsafeEnv.UnsafeMode = true ∧
    ExecuteToolWithConfirmation llm.unsafeEnv ⟨[], 0, 3⟩ "bash" llm.sampleTool none =
      (⟨[] ++ [.invoke "bash" none], 0, 3 + 1⟩, llm.sampleTool 3 none) :=
  ⟨rfl, ExecuteToolWithConfirmation_unsafe_mode llm.unsafeEnv ⟨[], 0, 3⟩ "bash" llm.sampleTool
    none rfl⟩

end tools

/-! ## The model turn, error classification and the append-only history -/

namespace llm

theorem Chat_after_model_turn (env : Env) (st : State) (messages : List Message)
    (pre : List RoundTrip) (s s1 : State) (body : String) (cs1 : List Candidate) (c : Candidate)
    (cs2 : List Candidate) (rest : List RoundTrip)
    (hreach : Chat env st messages pre = (s, .awaitingReply))
    (hcs1 : processCandidates env (sendRequest (chatURL st.g) (geminiTools env.Tools) s) cs1 =
      (s1, .next))
    (hne : c.Content.Parts ≠ []) :
    ∃ hs : List Content,
      (Chat env st messages
        (pre ++ .response 200 body (.ok ⟨cs1 ++ c :: cs2⟩) :: rest)).1.g.conversationHistory =
        s1.g.conversationHistory ++ modelResponse c :: hs := by
  rw [Chat_at_candidate env st messages pre s s1 body cs1 c cs2 rest hreach hcs1 hne]
  obtain ⟨rs, evs, hh, _, _, _, _, hfl⟩ :=
    processParts_effect env c.Content.Parts (s1.append (modelResponse c))
  rcases hpp : processParts env (s1.append (modelResponse c)) c.Content.Parts with ⟨s2, fl⟩
  rw [hpp] at hh hfl
  simp only [State.append_history] at hh hfl
  cases fl with
  | returned e =>
    exact ⟨rs ++ (if c.Content.Parts.any Part.isEmpty then [placeholderMessage] else []),
      by simp [hh]⟩
  | next =>
    simp only
    by_cases hf : finishContinues c.FinishReason = true
    · simp only [hf, if_true]
      obtain ⟨hs2, _, hh2, _, _⟩ :=
        response_tail_grows env (chatURL st.g) (geminiTools env.Tools) s2 cs2 rest
      exact ⟨rs ++ (if c.Content.Parts.any Part.isEmpty then [placeholderMessage] else []) ++ hs2,
        by rw [hh2, hh]; simp⟩
    · simp only [hf]
      exact ⟨rs ++ (if c.Content.Parts.any Part.isEmpty then [placeholderMessage] else []),
        by simp [hh]⟩

/-- C13 fails as stated: for a candidate whose content has the role `user`, the message
appended to history has the role `model`, so it differs from the content the model returned. -/
theorem Chat_model_turn_role_overwritten :
    (Chat sampleEnv sampleState [⟨"user", "hi"⟩]
        [.response 200 "" (.ok ⟨[userRoleCandidate]⟩)]).1.g.conversationHistory =
      [⟨"user", [⟨"hi", none, none⟩]⟩, ⟨"model", [⟨"hello", none, none⟩]⟩] ∧
    userRoleCandidate.Content = ⟨"user", [⟨"hello", none, none⟩]⟩ ∧
    userRoleCandidate.Content ∉ (Chat sampleEnv sampleState [⟨"user", "hi"⟩]
        [.response 200 "" (.ok ⟨[userRoleCandidate]⟩)]).1.g.conversationHistory := by
  decide

/-- C13 (as amended): the message `Chat` appends to history for a candidate with at least one
part has the candidate's parts, the same ones in the same order, and the role `model`
whatever role the content came with; it equals the content as the model returned it exactly
when that role is `model`. It stands in the history right after what was there when the candidate was
reached, in every continuation of the run. -/
theorem Chat_appends_model_turn (env : Env) (st : State) (messages : List Message)
    (pre : List RoundTrip) (s s1 : State) (body : String) (cs1 : List Candidate) (c : Candidate)
    (cs2 : List Candidate)
    (hreach : Chat env st messages pre = (s, .awaitingReply))
    (hcs1 : processCandidates env (sendRequest (chatURL st.g) (geminiTools env.Tools) s) cs1 =
      (s1, .next))
    (hne : c.Content.Parts ≠ []) :
    (∀ rest : List RoundTrip, ∃ hs : List Content,
      (Chat env st messages
        (pre ++ .response 200 body (.ok ⟨cs1 ++ c :: cs2⟩) :: rest)).1.g.conversationHistory =
        s1.g.conversationHistory ++ (⟨"model", c.Content.Parts⟩ : Content) :: hs) ∧
    ((⟨"model", c.Content.Parts⟩ : Content) = c.Content ↔ c.Content.Role = "model") := by
  constructor
  · intro rest
    exact Chat_after_model_turn env st messages pre s s1 body cs1 c cs2 rest hreach hcs1 hne
  · constructor
    · intro h
      rw [← h]
    · intro hrole
      rw [← hrole]

/-- Instance of C13 (as amended): the candidate whose content has the role `user`. -/
theorem Chat_appends_model_turn_witness :
    Chat sampleEnv sampleState [⟨"user", "hi"⟩] [] = (sampleReached, .awaitingReply) ∧
    userRoleCandidate.Content.Parts ≠ [] ∧
    ∀ rest : List RoundTrip, ∃ hs : List Content,
      (Chat sampleEnv sampleState [⟨"user", "hi"⟩]
        ([] ++ .response 200 "" (.ok ⟨[] ++ userRoleCandidate :: []⟩) ::
          rest)).1.g.conversationHistory =
        sampleSent.g.conversationHistory ++
          (⟨"model", userRoleCandidate.Content.Parts⟩ : Content) :: hs :=
  ⟨by decide, by decide,
    (Chat_appends_model_turn sampleEnv sampleState [⟨"user", "hi"⟩] [] sampleReached sampleSent
      "" [] userRoleCandidate [] (by decide) (by decide) (by decide)).1⟩

theorem chatLoop_error_status (env : Env) (url : String) (gts : List Tool) (st : State)
    (status : Int) (body : String) (parsed : Except String GeminiResponse)
    (script : List RoundTrip) (hs : status ≠ 200) :
    chatLoop env url gts st (.response status body parsed :: script) =
      (sendRequest url gts st, .returned (some (GoError.wrap .ErrLLMAPI
        ("API returned status " ++ toString status ++ ": " ++ body)))) := by
  simp [chatLoop, hs]

/-- C14 fails as stated: a response with the 2xx status 201 and a body that parses into a
text candidate is classified as an API error; the candidate is not processed. -/
theorem Chat_status_201_is_api_error :
    Chat sampleEnv sampleState [⟨"user", "hi"⟩]
        [.response 201 "created" (.ok ⟨[⟨⟨"model", [⟨"hello", none, none⟩]⟩, "STOP"⟩]⟩)] =
      (sampleSent,
        .returned (some ⟨"LLM API error: API returned status 201: created",
          some .ErrLLMAPI⟩)) := by
  decide

/-- C14 (as amended): `Chat` classifies a response as an API error, returning an error that
wraps `ErrLLMAPI` and carries the status code and the body, exactly when the status is not
200. A response with status 200 is parsed: when the body does not parse the error wraps
`ErrInvalidResponse`, and when it parses no error is returned and the session is the one
left by processing the candidates; so an error wrapping `ErrLLMAPI` in answer to a response
means that its status was not 200. -/
theorem Chat_api_error_unless_status_200 (env : Env) (st : State) (messages : List Message)
    (pre : List RoundTrip) (s : State) (status : Int) (body : String)
    (parsed : Except String GeminiResponse)
    (hreach : Chat env st messages pre = (s, .awaitingReply)) :
    (status ≠ 200 → ∀ rest : List RoundTrip,
      Chat env st messages (pre ++ .response status body parsed :: rest) =
        (sendRequest (chatURL st.g) (geminiTools env.Tools) s,
          .returned (some (GoError.wrap .ErrLLMAPI
            ("API returned status " ++ toString status ++ ": " ++ body))))) ∧
    (status = 200 →
      (∀ m, parsed = .error m → ∀ rest : List RoundTrip,
        Chat env st messages (pre ++ .response status body parsed :: rest) =
          (sendRequest (chatURL st.g) (geminiTools env.Tools) s,
            .returned (some (GoError.wrap .ErrInvalidResponse
              ("failed to unmarshal response: " ++ m))))) ∧
      (∀ resp, parsed = .ok resp →
        (Chat env st messages (pre ++ [.response status body parsed])).1 =
          (processCandidates env (sendRequest (chatURL st.g) (geminiTools env.Tools) s)
            resp.Candidates).1 ∧
        ((Chat env st messages (pre ++ [.response status body parsed])).2 = .returned none ∨
          (Chat env st messages (pre ++ [.response status body parsed])).2 =
            .awaitingReply))) ∧
    (∀ e : GoError,
      (Chat env st messages (pre ++ [.response status body parsed])).2 = .returned (some e) →
      e.wraps = some .ErrLLMAPI → status ≠ 200) := by
  have h200 : status = 200 →
      (∀ m, parsed = .error m → ∀ rest : List RoundTrip,
        Chat env st messages (pre ++ .response status body parsed :: rest) =
          (sendRequest (chatURL st.g) (geminiTools env.Tools) s,
            .returned (some (GoError.wrap .ErrInvalidResponse
              ("failed to unmarshal response: " ++ m))))) ∧
      (∀ resp, parsed = .ok resp →
        (Chat env st messages (pre ++ [.response status body parsed])).1 =
          (processCandidates env (sendRequest (chatURL st.g) (geminiTools env.Tools) s)
            resp.Candidates).1 ∧
        ((Chat env st messages (pre ++ [.response status body parsed])).2 = .returned none ∨
          (Chat env st messages (pre ++ [.response status body parsed])).2 =
            .awaitingReply)) := ?_
  refine ⟨?_, h200, ?_⟩
  · intro hs rest
    rw [Chat_append env st messages pre _ s hreach, chatLoop_error_status env _ _ s status body
      parsed rest hs]
  · intro e he hw hs
    obtain ⟨herr, hok⟩ := h200 hs
    cases parsed with
    | error m =>
      rw [herr m rfl []] at he
      injection he with h1
      injection h1 with h2
      rw [← h2] at hw
      simp [GoError.wrap] at hw
    | ok resp =>
      rcases (hok resp rfl).2 with h | h
      · rw [h] at he; cases he
      · rw [h] at he; cases he
  · intro hs
    subst hs
    refine ⟨?_, ?_⟩
    · intro m hm rest
      subst hm
      rw [Chat_append env st messages pre _ s hreach]
      simp [chatLoop]
    · intro resp hresp
      subst hresp
      rw [Chat_append env st messages pre _ s hreach]
      by_cases hne : resp.Candidates = []
      · simp [chatLoop, hne, processCandidates]
      · rw [chatLoop_response env _ _ s body resp [] hne]
        obtain ⟨_, _, _, _, _, _, hfl⟩ := processCandidates_effect env resp.Candidates
          (sendRequest (chatURL st.g) (geminiTools env.Tools) s)
        rcases hpc : processCandidates env
          (sendRequest (chatURL st.g) (geminiTools env.Tools) s) resp.Candidates with ⟨st2, fl⟩
        rw [hpc] at hfl
        simp only at hfl
        rcases hfl with h | h
        · subst h; simp [chatLoop]
        · subst h; simp

/-- Instance of C14 (as amended): the status 500 with a body that would have parsed. -/
theorem Chat_api_error_unless_status_200_witness :
    Chat sampleEnv sampleState [⟨"user", "hi"⟩] [] = (sampleReached, .awaitingReply) ∧
    ((500 : Int) ≠ 200) ∧
    Chat sampleEnv sampleState [⟨"user", "hi"⟩]
        ([] ++ .response 500 "overloaded" (.ok ⟨[]⟩) :: [.sendError "unused"]) =
      (sendRequest (chatURL sampleState.g) (geminiTools sampleEnv.Tools) sampleReached,
        .returned (some (GoError.wrap .ErrLLMAPI
          ("API returned status " ++ toString (500 : Int) ++ ": " ++ "overloaded")))) :=
  ⟨by decide, by decide,
    (Chat_api_error_unless_status_200 sampleEnv sampleState [⟨"user", "hi"⟩] [] sampleReached
      500 "overloaded" (.ok ⟨[]⟩) (by decide)).1 (by decide) [.sendError "unused"]⟩

/-- C15: when the round trip fails, by a send failure, a failure to read the body, a status
other than 200 (so every error status), or a body that does not parse, `Chat` returns at once
an error: it wraps `ErrInvalidResponse` for the body that does not parse and `ErrLLMAPI` in
the other cases. The only new event is the request of this round; the history and the rest of
the session are as they were when the request was built, and the replies that follow in the
script are not used. -/
theorem Chat_model_call_failure (env : Env) (st : State) (messages : List Message)
    (pre : List RoundTrip) (s : State) (rest : List RoundTrip)
    (hreach : Chat env st messages pre = (s, .awaitingReply)) :
    (∀ m, ∃ e : GoError, e.wraps = some .ErrLLMAPI ∧
      Chat env st messages (pre ++ .sendError m :: rest) =
        (⟨s.g, ⟨s.w.trace ++ [.request (chatURL st.g)
            (requestPayload s.g.conversationHistory (geminiTools env.Tools))],
          s.w.reads, s.w.invocations⟩⟩, .returned (some e))) ∧
    (∀ m, ∃ e : GoError, e.wraps = some .ErrLLMAPI ∧
      Chat env st messages (pre ++ .readError m :: rest) =
        (⟨s.g, ⟨s.w.trace ++ [.request (chatURL st.g)
            (requestPayload s.g.conversationHistory (geminiTools env.Tools))],
          s.w.reads, s.w.invocations⟩⟩, .returned (some e))) ∧
    (∀ status body parsed, status ≠ 200 → ∃ e : GoError, e.wraps = some .ErrLLMAPI ∧
      Chat env st messages (pre ++ .response status body parsed :: rest) =
        (⟨s.g, ⟨s.w.trace ++ [.request (chatURL st.g)
            (requestPayload s.g.conversationHistory (geminiTools env.Tools))],
          s.w.reads, s.w.invocations⟩⟩, .returned (some e))) ∧
    (∀ body m, ∃ e : GoError, e.wraps = some .ErrInvalidResponse ∧
      Chat env st messages (pre ++ .response 200 body (.error m) :: rest) =
        (⟨s.g, ⟨s.w.trace ++ [.request (chatURL st.g)
            (requestPayload s.g.conversationHistory (geminiTools env.Tools))],
          s.w.reads, s.w.invocations⟩⟩, .returned (some e))) := by
  refine ⟨?_, ?_, ?_, ?_⟩
  · intro m
    refine ⟨GoError.wrap .ErrLLMAPI ("failed to send request: " ++ m), rfl, ?_⟩
    rw [Chat_append env st messages pre _ s hreach]
    rfl
  · intro m
    refine ⟨GoError.wrap .ErrLLMAPI ("failed to read response: " ++ m), rfl, ?_⟩
    rw [Chat_append env st messages pre _ s hreach]
    rfl
  · intro status body parsed hs
    refine ⟨GoError.wrap .ErrLLMAPI ("API returned status " ++ toString status ++ ": " ++ body),
      rfl, ?_⟩
    rw [Chat_append env st messages pre _ s hreach,
      chatLoop_error_status env _ _ s status body parsed rest hs]
    rfl
  · intro body m
    refine ⟨GoError.wrap .ErrInvalidResponse ("failed to unmarshal response: " ++ m), rfl, ?_⟩
    rw [Chat_append env st messages pre _ s hreach]
    rfl

/-- Instance of C15: the first request cannot be sent; the scripted second reply is unused. -/
theorem Chat_model_call_failure_witness :
    Chat sampleEnv sampleState [⟨"user", "hi"⟩] [] = (sampleReached, .awaitingReply) ∧
    ∃ e : GoError, e.wraps = some .ErrLLMAPI ∧
      Chat sampleEnv sampleState [⟨"user", "hi"⟩]
          ([] ++ .sendError "connection refused" :: [.response 200 "" (.ok ⟨[]⟩)]) =
        (⟨sampleReached.g, ⟨sampleReached.w.trace ++ [.request (chatURL sampleState.g)
            (requestPayload sampleReached.g.conversationHistory (geminiTools sampleEnv.Tools))],
          sampleReached.w.reads, sampleReached.w.invocations⟩⟩, .returned (some e)) :=
  ⟨by decide,
    (Chat_model_call_failure sampleEnv sampleState [⟨"user", "hi"⟩] [] sampleReached
      [.response 200 "" (.ok ⟨[]⟩)] (by decide)).1 "connection refused"⟩

/-- C18: for every call of `Chat`, whatever the script of replies and however the call ends,
the history after the call is the history before it followed by further messages; so its
first messages, as many as there were before the call, are the ones that were there. -/
theorem Chat_history_append_only (env : Env) (st : State) (messages : List Message)
    (script : List RoundTrip) :
    (∃ added : List Content,
      (Chat env st messages script).1.g.conversationHistory =
        st.g.conversationHistory ++ added) ∧
    (Chat env st messages script).1.g.conversationHistory.take
        st.g.conversationHistory.length = st.g.conversationHistory := by
  obtain ⟨hs, _, hh, _, _⟩ := chatLoop_grows env (chatURL st.g) (geminiTools env.Tools) script
    ⟨{ st.g with conversationHistory :=
        st.g.conversationHistory ++ messages.map messageContent }, st.w⟩
  rw [Chat_eq_chatLoop, hh]
  simp only [List.append_assoc]
  exact ⟨⟨_, rfl⟩, by simp⟩

end llm

/-! ## Construction of a session -/

namespace llm

/-- C16: `NewLLMProvider` returns a nil instance and an error wrapping `ErrConfiguration` when
the key is empty and when the provider is not `gemini`; for a non-empty key and the provider
`gemini` it returns the instance built by `NewGeminiLLM` and a nil error. So the configuration
error comes exactly when the key is empty or the provider is not `gemini`. -/
theorem NewLLMProvider_configuration_error (promptFile : Except GoError String)
    (config : LLMConfig) :
    (config.APIKey = "" →
      NewLLMProvider promptFile config =
        (none, some ⟨"LLM configuration error: APIKey is required in LLMConfig",
          some .ErrConfiguration⟩)) ∧
    (config.APIKey ≠ "" → config.Provider ≠ "gemini" →
      NewLLMProvider promptFile config =
        (none, some (GoError.wrap .ErrConfiguration
          ("unsupported LLM provider: " ++ config.Provider)))) ∧
    (config.APIKey ≠ "" → config.Provider = "gemini" →
      ∃ g : GeminiLLM, NewGeminiLLM promptFile config = (some g, none) ∧
        NewLLMProvider promptFile config = (some g, none)) ∧
    ((∃ e : GoError, e.wraps = some .ErrConfiguration ∧
        NewLLMProvider promptFile config = (none, some e)) ↔
      (config.APIKey = "" ∨ config.Provider ≠ "gemini")) := by
  have h1 : config.APIKey = "" →
      NewLLMProvider promptFile config =
        (none, some ⟨"LLM configuration error: APIKey is required in LLMConfig",
          some .ErrConfiguration⟩) := by
    intro h
    simp [NewLLMProvider, h]
    rfl
  have h2 : config.APIKey ≠ "" → config.Provider ≠ "gemini" →
      NewLLMProvider promptFile config =
        (none, some (GoError.wrap .ErrConfiguration
          ("unsupported LLM provider: " ++ config.Provider))) := by
    intro hk hp
    simp [NewLLMProvider, hk, GeminiProvider, hp]
  have h3 : config.APIKey ≠ "" → config.Provider = "gemini" →
      ∃ g : GeminiLLM, NewGeminiLLM promptFile config = (some g, none) ∧
        NewLLMProvider promptFile config = (some g, none) := by
    intro hk hp
    exact ⟨_, rfl, by simp [NewLLMProvider, hk, GeminiProvider, hp, NewGeminiLLM]⟩
  refine ⟨h1, h2, h3, ?_⟩
  constructor
  · rintro ⟨e, _, he⟩
    by_cases hk : config.APIKey = ""
    · exact Or.inl hk
    · right
      intro hp
      obtain ⟨g, _, hg⟩ := h3 hk hp
      rw [hg] at he
      cases he
  · intro h
    by_cases hk : config.APIKey = ""
    · exact ⟨_, rfl, h1 hk⟩
    · rcases h with h | h
      · exact absurd h hk
      · exact ⟨_, rfl, h2 hk h⟩

/-- Instance of C16: the three configurations of the repository's test. -/
theorem NewLLMProvider_configuration_error_witness :
    NewLLMProvider (.ok "prompt") ⟨"gemini", "", "", ""⟩ =
      (none, some ⟨"LLM configuration error: APIKey is required in LLMConfig",
        some .ErrConfiguration⟩) ∧
    NewLLMProvider (.ok "prompt") ⟨"unsupported-provider", "test-api-key", "", ""⟩ =
      (none, some (GoError.wrap .ErrConfiguration
        ("unsupported LLM provider: " ++ "unsupported-provider"))) ∧
    ∃ g : GeminiLLM, NewGeminiLLM (.ok "prompt") sampleConfig = (some g, none) ∧
      NewLLMProvider (.ok "prompt") sampleConfig = (some g, none) :=
  ⟨(NewLLMProvider_configuration_error (.ok "prompt") ⟨"gemini", "", "", ""⟩).1 rfl,
    (NewLLMProvider_configuration_error (.ok "prompt")
      ⟨"unsupported-provider", "test-api-key", "", ""⟩).2.1 (by decide) (by decide),
    (NewLLMProvider_configuration_error (.ok "prompt") sampleConfig).2.2.1 (by decide)
      (by decide)⟩

/-- C17: for every configuration `NewGeminiLLM` returns, with a nil error, a session whose
history is exactly one message, of role `model` with the single text part holding the default
system prompt, whose key is the configured key, whose model is the configured model, or
`gemini-1.5-pro` when that is empty, and whose endpoint is the configured endpoint, or
`https://generativelanguage.googleapis.com/v1beta` when that is empty. The default system
prompt is the embedded prompt file, or the fallback sentence when the file cannot be read. -/
theorem NewGeminiLLM_initial_session (promptFile : Except GoError String) (config : LLMConfig) :
    NewGeminiLLM promptFile config =
      (some
        { apiKey := config.APIKey
          model := if config.Model = "" then "gemini-1.5-pro" else config.Model
          endpoint :=
            if config.Endpoint = "" then "https://generativelanguage.googleapis.com/v1beta"
            else config.Endpoint
          conversationHistory :=
            [⟨"model", [⟨getDefaultSystemPrompt promptFile, none, none⟩]⟩] },
        none) ∧
    (∀ content, getDefaultSystemPrompt (.ok content) = content) ∧
    (∀ err, getDefaultSystemPrompt (.error err) =
      "You are a helpful AI assistant for cloud architects and DevOps engineers.") := by
  refine ⟨rfl, fun _ => rfl, fun _ => rfl⟩

end llm

/-! ## The four tools -/

namespace tools

/-- C19: for each of the four tools, given a string `command`: when the subordinate shell runs
the command line and exits with the code `c` and the combined output `o`, the tool returns
`"output": o, "exit_code": c` with a nil error, for 0 and for every other code; when the
process cannot be started, the tool returns a non-nil error (`helm` and `az` hand back with it
a result map with the exit code -1, `bash` and `kubectl` a nil result). -/
theorem Execute_reports_exit_code (shell : Shell) (n : Nat) (args : GoMap) (command : String)
    (hcmd : stringArg args "command" = some command) :
    (∀ (o : String) (c : Int),
      (shell n command = if c = 0 then ⟨o, none⟩ else ⟨o, some (.exitError c)⟩) →
        ExecuteBash shell n args = ⟨some [("output", .str o), ("exit_code", .num c)], none⟩) ∧
    (∀ (o : String) (c : Int),
      (shell n (kubectlCmd args command) =
          if c = 0 then ⟨o, none⟩ else ⟨o, some (.exitError c)⟩) →
        ExecuteKubectl shell n args =
          ⟨some [("output", .str o), ("exit_code", .num c)], none⟩) ∧
    (∀ (o : String) (c : Int),
      (shell n (helmCmd args command) =
          if c = 0 then ⟨o, none⟩ else ⟨o, some (.exitError c)⟩) →
        ExecuteHelm shell n args = ⟨some [("output", .str o), ("exit_code", .num c)], none⟩) ∧
    (∀ (o : String) (c : Int),
      (shell n (azCmd args command) =
          if c = 0 then ⟨o, none⟩ else ⟨o, some (.exitError c)⟩) →
        ExecuteAz shell n args = ⟨some [("output", .str o), ("exit_code", .num c)], none⟩) ∧
    (∀ (o m : String), shell n command = ⟨o, some (.other m)⟩ →
      ExecuteBash shell n args = ⟨none, some ⟨"failed to execute command: " ++ m, none⟩⟩) ∧
    (∀ (o m : String), shell n (kubectlCmd args command) = ⟨o, some (.other m)⟩ →
      ExecuteKubectl shell n args =
        ⟨none, some ⟨"failed to execute kubectl command: " ++ m, none⟩⟩) ∧
    (∀ (o m : String), shell n (helmCmd args command) = ⟨o, some (.other m)⟩ →
      ExecuteHelm shell n args =
        ⟨some [("output", .str o), ("exit_code", .num (-1))],
          some ⟨"failed to execute helm command: " ++ m ++ ". Output: " ++ o, none⟩⟩) ∧
    (∀ (o m : String), shell n (azCmd args command) = ⟨o, some (.other m)⟩ →
      ExecuteAz shell n args =
        ⟨some [("output", .str o), ("exit_code", .num (-1))],
          some ⟨"failed to execute az command: " ++ m ++ ". Output: " ++ o, none⟩⟩) := by
  refine ⟨?_, ?_, ?_, ?_, ?_, ?_, ?_, ?_⟩
  · intro o c h
    by_cases hc : c = 0 <;> simp [ExecuteBash, hcmd, h, hc, outputResult]
  · intro o c h
    by_cases hc : c = 0 <;> simp [ExecuteKubectl, hcmd, h, hc, outputResult]
  · intro o c h
    by_cases hc : c = 0 <;> simp [ExecuteHelm, hcmd, h, hc, outputResult]
  · intro o c h
    by_cases hc : c = 0 <;> simp [ExecuteAz, hcmd, h, hc, outputResult]
  · intro o m h
    simp [ExecuteBash, hcmd, h]
  · intro o m h
    simp [ExecuteKubectl, hcmd, h]
  · intro o m h
    simp [ExecuteHelm, hcmd, h, outputResult]
  · intro o m h
    simp [ExecuteAz, hcmd, h, outputResult]

/-- Instance of C19: `bash` running `false`, which exits with the code 1. -/
theorem Execute_reports_exit_code_witness :
    stringArg (some [("command", .str "false")]) "command" = some "false" ∧
    (sampleShell 0 "false" = if (1 : Int) = 0 then ⟨"", none⟩ else ⟨"", some (.exitError 1)⟩) ∧
    ExecuteBash sampleShell 0 (some [("command", .str "false")]) =
      ⟨some [("output", .str ""), ("exit_code", .num 1)], none⟩ :=
  ⟨rfl, by decide,
    (Execute_reports_exit_code sampleShell 0 (some [("command", .str "false")]) "false" rfl).1
      "" 1 (by decide)⟩

end tools

/-! ## The tool declarations sent to the model -/

namespace llm

theorem foldl_append_singleton {α β : Type} (f : α → β) (l : List α) : ∀ init : List β,
    l.foldl (fun acc x => acc ++ [f x]) init = init ++ l.map f := by
  induction l with
  | nil => intro init; simp
  | cons x xs ih => intro init; simp [ih]

theorem requiredProps_foldl (props : List (String × tools.Property)) : ∀ init : List String,
    props.foldl (fun acc np => if np.2.Required then acc ++ [np.1] else acc) init =
      init ++ (props.filter (fun np => np.2.Required)).map (fun np => np.1) := by
  induction props with
  | nil => intro init; simp
  | cons np nps ih =>
    intro init
    by_cases h : np.2.Required = true <;> simp [ih, h]

theorem requiredProps_eq (props : List (String × tools.Property)) :
    requiredProps props = (props.filter (fun np => np.2.Required)).map (fun np => np.1) := by
  unfold requiredProps
  rw [requiredProps_foldl]
  simp

theorem no_request_of_requestsOf_nil (evs : List Event) (h : requestsOf evs = []) :
    ∀ (u : String) (p : GeminiRequest), Event.request u p ∉ evs := by
  induction evs with
  | nil => intro u p hmem; simp at hmem
  | cons e es ih =>
    intro u p hmem
    cases e with
    | request u0 p0 => simp [requestsOf] at h
    | emit t =>
      have hes : requestsOf es = [] := by simpa [requestsOf] using h
      rcases List.mem_cons.mp hmem with h1 | h1
      · cases h1
      · exact ih hes u p h1
    | dispatch a b =>
      have hes : requestsOf es = [] := by simpa [requestsOf] using h
      rcases List.mem_cons.mp hmem with h1 | h1
      · cases h1
      · exact ih hes u p h1
    | prompt a b =>
      have hes : requestsOf es = [] := by simpa [requestsOf] using h
      rcases List.mem_cons.mp hmem with h1 | h1
      · cases h1
      · exact ih hes u p h1
    | invoke a b =>
      have hes : requestsOf es = [] := by simpa [requestsOf] using h
      rcases List.mem_cons.mp hmem with h1 | h1
      · cases h1
      · exact ih hes u p h1

theorem chatLoop_request_payloads (env : Env) (url : String) (gts : List Tool)
    (script : List RoundTrip) : ∀ st : State,
    ∃ evs : List Event, (chatLoop env url gts st script).1.w.trace = st.w.trace ++ evs ∧
      ∀ (u : String) (p : GeminiRequest), Event.request u p ∈ evs →
        u = url ∧ ∃ h : List Content, p = requestPayload h gts := by
  induction script with
  | nil => intro st; exact ⟨[], by simp [chatLoop], by simp⟩
  | cons rt script ih =>
    intro st
    have hsend : ∃ evs : List Event,
        (sendRequest url gts st).w.trace = st.w.trace ++ evs ∧
        ∀ (u : String) (p : GeminiRequest), Event.request u p ∈ evs →
          u = url ∧ ∃ h : List Content, p = requestPayload h gts := by
      refine ⟨[.request url (requestPayload st.g.conversationHistory gts)], by simp, ?_⟩
      intro u p hmem
      simp only [List.mem_singleton] at hmem
      injection hmem with hu hp
      exact ⟨hu, _, hp⟩
    cases rt with
    | marshalError m => exact ⟨[], by simp [chatLoop], by simp⟩
    | newRequestError m => exact ⟨[], by simp [chatLoop], by simp⟩
    | sendError m => simpa [chatLoop] using hsend
    | readError m => simpa [chatLoop] using hsend
    | response status body parsed =>
      by_cases hs : status = 200
      · subst hs
        cases parsed with
        | error m => simpa [chatLoop] using hsend
        | ok resp =>
          by_cases hne : resp.Candidates = []
          · simpa [chatLoop, hne] using hsend
          · rw [chatLoop_response env url gts st body resp script hne]
            obtain ⟨_, evs1, _, _, htr1, hrq1, _⟩ :=
              processCandidates_effect env resp.Candidates (sendRequest url gts st)
            rcases hpc : processCandidates env (sendRequest url gts st) resp.Candidates
              with ⟨st2, fl⟩
            rw [hpc] at htr1
            simp only [sendRequest_trace] at htr1
            have hno := no_request_of_requestsOf_nil evs1 hrq1
            cases fl with
            | returned e =>
              refine ⟨.request url (requestPayload st.g.conversationHistory gts) :: evs1,
                by simp [htr1], ?_⟩
              intro u p hmem
              rcases List.mem_cons.mp hmem with h | h
              · injection h with hu hp
                exact ⟨hu, _, hp⟩
              · exact absurd h (hno u p)
            | next =>
              obtain ⟨evs2, htr2, hall2⟩ := ih st2
              refine ⟨.request url (requestPayload st.g.conversationHistory gts) :: evs1 ++ evs2,
                by simp [htr2, htr1], ?_⟩
              intro u p hmem
              rcases List.mem_cons.mp hmem with h | h
              · injection h with hu hp
                exact ⟨hu, _, hp⟩
              · rcases List.mem_append.mp h with h | h
                · exact absurd h (hno u p)
                · exact hall2 u p h
      · simpa [chatLoop, hs] using hsend

/-- C20: for a non-empty list of tool declarations `Chat` builds one tool entry whose function
declarations follow the declarations in order: same name, same description, schema type
`object`, the same property keys with the type and description of each property, and as
required list the names of the properties whose `Required` flag is set, each as often as it
is declared (once, keys of a map being distinct); for no declarations it builds no entry.
For each of the four reference tools the required list is `command` alone. Every request
`Chat` sends carries the entry built from `tools.Tools`. -/
theorem geminiTools_conversion (env : Env) (st : State) (messages : List Message)
    (script : List RoundTrip) :
    (∀ ts : List tools.Tool, ts ≠ [] →
      geminiTools ts =
        [⟨ts.map (fun tool =>
          { Name := tool.Name
            Description := tool.Description
            Parameters :=
              { Typ := "object"
                Properties := tool.Parameters.Properties.map
                  (fun np => (np.1, ⟨np.2.Typ, np.2.Description⟩))
                Required := (tool.Parameters.Properties.filter
                  (fun np => np.2.Required)).map (fun np => np.1) } })⟩]) ∧
    geminiTools [] = [] ∧
    (∀ fd ∈ (geminiTools tools.Tools).flatMap (fun t => t.FunctionDeclarations),
      fd.Parameters.Required = ["command"]) ∧
    (geminiTools tools.Tools).flatMap (fun t => t.FunctionDeclarations.map (fun fd => fd.Name)) =
      ["bash", "kubectl", "helm", "az"] ∧
    (∃ evs : List Event, (Chat env st messages script).1.w.trace = st.w.trace ++ evs ∧
      ∀ (u : String) (p : GeminiRequest), Event.request u p ∈ evs →
        p.Tools = geminiTools env.Tools) := by
  refine ⟨?_, rfl, by decide, by decide, ?_⟩
  · intro ts hts
    have hlen : ts.length > 0 := List.length_pos.mpr hts
    simp only [geminiTools, hlen, if_true, foldl_append_singleton, List.nil_append]
    congr 2
    apply List.map_congr_left
    intro tool _
    simp [toFunctionDeclaration, requiredProps_eq, foldl_append_singleton]
  · rw [Chat_eq_chatLoop]
    obtain ⟨evs, htr, hall⟩ := chatLoop_request_payloads env (chatURL st.g)
      (geminiTools env.Tools) script
      ⟨{ st.g with conversationHistory :=
          st.g.conversationHistory ++ messages.map messageContent }, st.w⟩
    refine ⟨evs, htr, ?_⟩
    intro u p hmem
    obtain ⟨_, h, hp⟩ := hall u p hmem
    rw [hp]
    rfl

/-- Instance of C20: the declaration of `helm` alone. -/
theorem geminiTools_conversion_witness :
    [tools.HelmDeclaration] ≠ [] ∧
    geminiTools [tools.HelmDeclaration] =
      [⟨[tools.HelmDeclaration].map (fun tool =>
        { Name := tool.Name
          Description := tool.Description
          Parameters :=
            { Typ := "object"
              Properties := tool.Parameters.Properties.map
                (fun np => (np.1, ⟨np.2.Typ, np.2.Description⟩))
              Required := (tool.Parameters.Properties.filter
                (fun np => np.2.Required)).map (fun np => np.1) } })⟩] :=
  ⟨by decide,
    (geminiTools_conversion sampleEnv sampleState [] []).1 [tools.HelmDeclaration] (by decide)⟩

end llm

/-! ## The serialised request, the configuration file and the declarations -/

namespace llm

/-- C21, the code on every run: each request `Chat` sends is built with the temperature 0 and
its body has the member `generationConfig`, but the temperature is tagged `omitempty` and so
is left out of the body: the serialised `generationConfig` object has no member at all. -/
theorem Chat_request_body_omits_temperature (env : Env) (st : State) (messages : List Message)
    (script : List RoundTrip) :
    ∃ evs : List Event, (Chat env st messages script).1.w.trace = st.w.trace ++ evs ∧
      ∀ (u : String) (p : GeminiRequest), Event.request u p ∈ evs →
        p.GenerationConfig.Temperature = 0 ∧
        "generationConfig" ∈ p.jsonKeys ∧
        "temperature" ∉ p.GenerationConfig.jsonKeys ∧
        p.GenerationConfig.jsonKeys = [] := by
  rw [Chat_eq_chatLoop]
  obtain ⟨evs, htr, hall⟩ := chatLoop_request_payloads env (chatURL st.g)
    (geminiTools env.Tools) script
    ⟨{ st.g with conversationHistory :=
        st.g.conversationHistory ++ messages.map messageContent }, st.w⟩
  refine ⟨evs, htr, ?_⟩
  intro u p hmem
  obtain ⟨_, h, hp⟩ := hall u p hmem
  subst hp
  refine ⟨rfl, ?_, ?_, ?_⟩
  · simp [GeminiRequest.jsonKeys]
  · simp [requestPayload, GenerationConfig.jsonKeys]
  · simp [requestPayload, GenerationConfig.jsonKeys]

end llm

namespace config

/-- C22: for a configuration file that is read and parses, with the provider `gemini`:
`LoadConfig` returns the parsed configuration, with the key of the file, when that key is
neither empty nor the placeholder `YOUR_API_KEY_HERE`; otherwise it returns the configuration
with the value of `GEMINI_API_KEY` as key when that value is not empty; and otherwise it
returns no configuration and an error. -/
theorem LoadConfig_api_key (host : Host) (path content : String) (cfg : Config)
    (hread : host.readFile path = .ok content)
    (hparse : host.unmarshal content = .ok cfg)
    (hprov : cfg.LLM.Provider = "gemini") :
    (cfg.LLM.APIKey ≠ "" → cfg.LLM.APIKey ≠ "YOUR_API_KEY_HERE" →
      LoadConfig host path = .returned (some cfg) none) ∧
    ((cfg.LLM.APIKey = "" ∨ cfg.LLM.APIKey = "YOUR_API_KEY_HERE") →
      host.getenv "GEMINI_API_KEY" ≠ "" →
      LoadConfig host path =
        .returned (some ⟨⟨cfg.LLM.Provider, host.getenv "GEMINI_API_KEY", cfg.LLM.Model,
          cfg.LLM.Endpoint⟩, cfg.UnsafeMode⟩) none) ∧
    ((cfg.LLM.APIKey = "" ∨ cfg.LLM.APIKey = "YOUR_API_KEY_HERE") →
      host.getenv "GEMINI_API_KEY" = "" →
      LoadConfig host path =
        .returned none (some ⟨"API key for provider " ++ "gemini" ++
          " not found in config file or environment variable " ++ "GEMINI_API_KEY", none⟩)) := by
  refine ⟨?_, ?_, ?_⟩
  · intro h1 h2
    simp [LoadConfig, hread, hparse, h1, h2]
  · intro hk henv
    simp [LoadConfig, hread, hparse, hk, getAPIKeyEnvVar, hprov, llm.GeminiProvider, henv]
  · intro hk henv
    simp [LoadConfig, hread, hparse, hk, getAPIKeyEnvVar, hprov, llm.GeminiProvider, henv]

/-- Instance of C22: the placeholder key in the file and a key in the environment. -/
theorem LoadConfig_api_key_witness :
    sampleHost.readFile "config.yaml" = .ok "llm" ∧
    sampleHost.unmarshal "llm" = .ok ⟨⟨"gemini", "YOUR_API_KEY_HERE", "gemini-pro", ""⟩, false⟩ ∧
    LoadConfig sampleHost "config.yaml" =
      .returned (some ⟨⟨"gemini", sampleHost.getenv "GEMINI_API_KEY", "gemini-pro", ""⟩, false⟩)
        none :=
  ⟨rfl, rfl,
    (LoadConfig_api_key sampleHost "config.yaml" "llm"
      ⟨⟨"gemini", "YOUR_API_KEY_HERE", "gemini-pro", ""⟩, false⟩ rfl rfl rfl).2.1
      (Or.inr rfl) (by decide)⟩

end config

namespace tools

/-- C23: every declaration in `tools.Tools`, which are those of `bash`, `kubectl`, `helm` and
`az`, has a non-empty name, a non-empty description and the schema type `object`; it has a
property `command` that is marked required; each of its properties has the type `string` and a
non-empty description; and the declaration of `az` has exactly 4 properties. -/
theorem Tools_declarations_well_formed :
    Tools.map (fun t => t.Name) = ["bash", "kubectl", "helm", "az"] ∧
    (∀ t ∈ Tools,
      t.Name ≠ "" ∧ t.Description ≠ "" ∧ t.Parameters.Typ = "object" ∧
      (t.Parameters.Properties.lookup "command").map (fun p => p.Required) = some true ∧
      ∀ np ∈ t.Parameters.Properties, np.2.Typ = "string" ∧ np.2.Description ≠ "") ∧
    AzDeclaration ∈ Tools ∧
    AzDeclaration.Parameters.Properties.length = 4 := by
  decide

end tools

namespace llm

/-- C24 fails as stated: for a response with two candidates, a text and then a call of `bash`,
both with finish reason `STOP`, the content of the second candidate is appended to history too
and its call is dispatched. -/
theorem Chat_second_candidate_processed :
    (Chat sampleEnv sampleState [⟨"user", "hi"⟩]
        [.response 200 "" (.ok twoCandidates)]).1.g.conversationHistory =
      [⟨"user", [⟨"hi", none, none⟩]⟩,
       ⟨"model", [⟨"first", none, none⟩]⟩,
       ⟨"model", [bashCall]⟩,
       ⟨"model", [⟨"", none, some ⟨"bash",
          some [("result", .str "Tool execution cancelled by user.")]⟩⟩]⟩] ∧
    partEvents (Chat sampleEnv sampleState [⟨"user", "hi"⟩]
        [.response 200 "" (.ok twoCandidates)]).1.w.trace =
      [.emit "first", .dispatch "bash" (some [("command", .str "ls")])] := by
  decide

/-- C24 (as amended): for each model response `Chat` handles the candidates in order. Every
candidate with parts that it reaches has its content appended to history; and at the first
candidate with parts that has an empty part or a finish reason other than `STOP`, `Chat`
returns, so that the candidates after that one add nothing to history and trigger no dispatch:
the run is the one of the response cut after that candidate, with no further reply. -/
theorem Chat_handles_candidates_in_order (env : Env) (st : State) (messages : List Message)
    (pre : List RoundTrip) (s s1 : State) (body : String) (cs1 : List Candidate) (c : Candidate)
    (cs2 : List Candidate)
    (hreach : Chat env st messages pre = (s, .awaitingReply))
    (hcs1 : processCandidates env (sendRequest (chatURL st.g) (geminiTools env.Tools) s) cs1 =
      (s1, .next))
    (hne : c.Content.Parts ≠ []) :
    (∀ rest : List RoundTrip, ∃ hs : List Content,
      (Chat env st messages
        (pre ++ .response 200 body (.ok ⟨cs1 ++ c :: cs2⟩) :: rest)).1.g.conversationHistory =
        s1.g.conversationHistory ++ modelResponse c :: hs) ∧
    ((c.Content.Parts.any Part.isEmpty = true ∨ c.FinishReason ≠ "STOP") →
      ∀ rest : List RoundTrip,
        Chat env st messages (pre ++ .response 200 body (.ok ⟨cs1 ++ c :: cs2⟩) :: rest) =
          Chat env st messages (pre ++ .response 200 body (.ok ⟨cs1 ++ c :: []⟩) :: []) ∧
        ∃ e, (Chat env st messages
          (pre ++ .response 200 body (.ok ⟨cs1 ++ c :: cs2⟩) :: rest)).2 = .returned e) := by
  refine ⟨?_, ?_⟩
  · intro rest
    exact Chat_after_model_turn env st messages pre s s1 body cs1 c cs2 rest hreach hcs1 hne
  · intro hstop rest
    rw [Chat_at_candidate env st messages pre s s1 body cs1 c cs2 rest hreach hcs1 hne,
      Chat_at_candidate env st messages pre s s1 body cs1 c [] [] hreach hcs1 hne]
    obtain ⟨_, _, _, _, _, _, _, hfl⟩ :=
      processParts_effect env c.Content.Parts (s1.append (modelResponse c))
    rcases hpp : processParts env (s1.append (modelResponse c)) c.Content.Parts with ⟨s2, fl⟩
    rw [hpp] at hfl
    simp only at hfl
    by_cases hany : c.Content.Parts.any Part.isEmpty = true
    · rw [if_pos hany] at hfl
      subst hfl
      exact ⟨rfl, _, rfl⟩
    · rw [if_neg hany] at hfl
      subst hfl
      have hfin : c.FinishReason ≠ "STOP" := by
        rcases hstop with h | h
        · exact absurd h hany
        · exact h
      have hf : finishContinues c.FinishReason = false := by
        cases hfc : finishContinues c.FinishReason with
        | false => rfl
        | true => exact absurd ((finishContinues_iff _).mp hfc) hfin
      simp only [hf]
      exact ⟨rfl, _, rfl⟩

/-- Instance of C24 (as amended): a candidate cut short for safety, followed by another. -/
theorem Chat_handles_candidates_in_order_witness :
    Chat yesEnv sampleState [⟨"user", "hi"⟩] [] = (sampleReached, .awaitingReply) ∧
    safetyCandidate.FinishReason ≠ "STOP" ∧
    Chat yesEnv sampleState [⟨"user", "hi"⟩]
        ([] ++ .response 200 "" (.ok ⟨[] ++ safetyCandidate :: [mixedCandidate]⟩) ::
          [.sendError "unused"]) =
      Chat yesEnv sampleState [⟨"user", "hi"⟩]
        ([] ++ .response 200 "" (.ok ⟨[] ++ safetyCandidate :: []⟩) :: []) :=
  ⟨by decide, by decide,
    ((Chat_handles_candidates_in_order yesEnv sampleState [⟨"user", "hi"⟩] [] sampleReached
      sampleSent "" [] safetyCandidate [mixedCandidate] (by decide) (by decide) (by decide)).2
      (Or.inr (by decide)) [.sendError "unused"]).1⟩

end llm

/-! ## When the request loop goes on -/

namespace llm

theorem wellFormed_of_any_isEmpty_false (ps : List Part) (h : ps.any Part.isEmpty = false) :
    ∀ p ∈ ps, p.Text ≠ "" ∨ p.FunctionCall ≠ none := by
  intro p hp
  have hpe := List.any_eq_false.mp h p hp
  by_cases ht : p.Text = ""
  · right
    intro hc
    exact hpe (by simp [Part.isEmpty, ht, hc])
  · exact Or.inl ht

theorem processCandidates_next_iff (env : Env) (cs : List Candidate) : ∀ st : State,
    (processCandidates env st cs).2 = .next ↔ ∀ c ∈ cs, c.continues := by
  induction cs with
  | nil => intro st; simp [processCandidates]
  | cons c cs ih =>
    intro st
    by_cases hp : c.Content.Parts = []
    · rw [processCandidates_cons_skip env st c cs hp, ih st]
      constructor
      · intro h d hd
        rcases List.mem_cons.mp hd with h1 | h1
        · subst h1; exact Or.inl hp
        · exact h d h1
      · intro h d hd
        exact h d (List.mem_cons_of_mem _ hd)
    · rw [processCandidates_cons env st c cs hp]
      obtain ⟨_, _, _, _, _, _, _, hfl⟩ :=
        processParts_effect env c.Content.Parts (st.append (modelResponse c))
      rcases hpp : processParts env (st.append (modelResponse c)) c.Content.Parts with ⟨st2, fl⟩
      rw [hpp] at hfl
      simp only at hfl
      by_cases hany : c.Content.Parts.any Part.isEmpty = true
      · rw [if_pos hany] at hfl
        subst hfl
        constructor
        · intro h; cases h
        · intro h
          rcases h c (List.mem_cons_self _ _) with h1 | ⟨h1, _⟩
          · exact absurd h1 hp
          · rw [any_isEmpty_of_wellFormed _ h1] at hany
            cases hany
      · rw [if_neg hany] at hfl
        subst hfl
        have hwf := wellFormed_of_any_isEmpty_false c.Content.Parts (by simpa using hany)
        by_cases hf : finishContinues c.FinishReason = true
        · simp only [hf, if_true]
          rw [ih st2]
          constructor
          · intro h d hd
            rcases List.mem_cons.mp hd with h1 | h1
            · subst h1; exact Or.inr ⟨hwf, (finishContinues_iff _).mp hf⟩
            · exact h d h1
          · intro h d hd
            exact h d (List.mem_cons_of_mem _ hd)
        · simp only [hf]
          constructor
          · intro h; simp at h
          · intro h
            rcases h c (List.mem_cons_self _ _) with h1 | ⟨_, h1⟩
            · exact absurd h1 hp
            · exact absurd ((finishContinues_iff _).mpr h1) hf

theorem Chat_outcome_after_reply (env : Env) (st : State) (messages : List Message)
    (pre : List RoundTrip) (s : State) (rt : RoundTrip)
    (hreach : Chat env st messages pre = (s, .awaitingReply)) :
    ((Chat env st messages (pre ++ [rt])).2 = .awaitingReply ↔ rt.continues) ∧
    (¬ rt.continues → ∃ e, (Chat env st messages (pre ++ [rt])).2 = .returned e) := by
  rw [Chat_append env st messages pre _ s hreach]
  cases rt with
  | marshalError m => exact ⟨by simp [chatLoop, RoundTrip.continues], fun _ => ⟨_, rfl⟩⟩
  | newRequestError m => exact ⟨by simp [chatLoop, RoundTrip.continues], fun _ => ⟨_, rfl⟩⟩
  | sendError m => exact ⟨by simp [chatLoop, RoundTrip.continues], fun _ => ⟨_, rfl⟩⟩
  | readError m => exact ⟨by simp [chatLoop, RoundTrip.continues], fun _ => ⟨_, rfl⟩⟩
  | response status body parsed =>
    by_cases hs : status = 200
    · subst hs
      cases parsed with
      | error m => exact ⟨by simp [chatLoop, RoundTrip.continues], fun _ => ⟨_, rfl⟩⟩
      | ok resp =>
        by_cases hne : resp.Candidates = []
        · exact ⟨by simp [chatLoop, RoundTrip.continues, hne],
            fun _ => ⟨none, by simp [chatLoop, hne]⟩⟩
        · rw [chatLoop_response env _ _ s body resp [] hne]
          have hiff := processCandidates_next_iff env resp.Candidates
            (sendRequest (chatURL st.g) (geminiTools env.Tools) s)
          rcases hpc : processCandidates env
            (sendRequest (chatURL st.g) (geminiTools env.Tools) s) resp.Candidates
            with ⟨st2, fl⟩
          rw [hpc] at hiff
          simp only at hiff
          cases fl with
          | returned e =>
            have hnot : ¬ ∀ c ∈ resp.Candidates, c.continues := fun h => by
              have := hiff.mpr h
              cases this
            exact ⟨by simp [RoundTrip.continues, hnot], fun _ => ⟨e, rfl⟩⟩
          | next =>
            have hall := hiff.mp rfl
            refine ⟨⟨fun _ => ⟨rfl, hne, hall⟩, fun _ => by simp [chatLoop]⟩, ?_⟩
            intro hnot
            exact absurd (show RoundTrip.continues (.response 200 body (.ok resp)) from
              ⟨rfl, hne, hall⟩) hnot
    · have hc : ¬ RoundTrip.continues (.response status body parsed) := by
        cases parsed <;> simp [RoundTrip.continues, hs]
      rw [chatLoop_error_status env _ _ s status body parsed [] hs]
      exact ⟨⟨fun h => by simp at h, fun h => absurd h hc⟩, fun _ => ⟨_, rfl⟩⟩

theorem chatLoop_first_request (env : Env) (url : String) (gts : List Tool) (st : State)
    (rt : RoundTrip) (rest : List RoundTrip) (hsends : rt.sends = true) :
    ∃ evs : List Event,
      (chatLoop env url gts st (rt :: rest)).1.w.trace =
        st.w.trace ++ Event.request url (requestPayload st.g.conversationHistory gts) :: evs := by
  cases rt with
  | marshalError m => simp [RoundTrip.sends] at hsends
  | newRequestError m => simp [RoundTrip.sends] at hsends
  | sendError m => exact ⟨[], by simp [chatLoop]⟩
  | readError m => exact ⟨[], by simp [chatLoop]⟩
  | response status body parsed =>
    by_cases hs : status = 200
    · subst hs
      cases parsed with
      | error m => exact ⟨[], by simp [chatLoop]⟩
      | ok resp =>
        by_cases hne : resp.Candidates = []
        · exact ⟨[], by simp [chatLoop, hne]⟩
        · rw [chatLoop_response env url gts st body resp rest hne]
          obtain ⟨_, evs1, _, _, htr1, _, _⟩ :=
            processCandidates_effect env resp.Candidates (sendRequest url gts st)
          rcases hpc : processCandidates env (sendRequest url gts st) resp.Candidates
            with ⟨st2, fl⟩
          rw [hpc] at htr1
          simp only [sendRequest_trace] at htr1
          cases fl with
          | returned e => exact ⟨evs1, by simp [htr1]⟩
          | next =>
            obtain ⟨_, evs2, _, htr2, _⟩ := chatLoop_grows env url gts rest st2
            exact ⟨evs1 ++ evs2, by simp [htr2, htr1]⟩
    · exact ⟨[], by rw [chatLoop_error_status env url gts st status body parsed rest hs]; simp⟩

theorem chatLoop_cut (env : Env) (url : String) (gts : List Tool) (st : State)
    (rt : RoundTrip) (rest : List RoundTrip)
    (h : (chatLoop env url gts st [rt]).2 ≠ .awaitingReply) :
    chatLoop env url gts st (rt :: rest) = chatLoop env url gts st [rt] := by
  cases rt with
  | marshalError m => rfl
  | newRequestError m => rfl
  | sendError m => rfl
  | readError m => rfl
  | response status body parsed =>
    by_cases hs : status = 200
    · subst hs
      cases parsed with
      | error m => rfl
      | ok resp =>
        by_cases hne : resp.Candidates = []
        · simp [chatLoop, hne]
        · rw [chatLoop_response env url gts st body resp [] hne] at h
          rw [chatLoop_response env url gts st body resp rest hne,
            chatLoop_response env url gts st body resp [] hne]
          rcases hpc : processCandidates env (sendRequest url gts st) resp.Candidates
            with ⟨st2, fl⟩
          rw [hpc] at h
          cases fl with
          | returned e => rfl
          | next => simp [chatLoop] at h
    · rw [chatLoop_error_status env url gts st status body parsed rest hs,
        chatLoop_error_status env url gts st status body parsed [] hs]

theorem chatLoop_single_requests (env : Env) (url : String) (gts : List Tool) (st : State)
    (rt : RoundTrip)
    (hsend : requestsOf (sendRequest url gts st).w.trace =
      requestsOf st.w.trace ++ [st.g.conversationHistory]) :
    requestsOf (chatLoop env url gts st [rt]).1.w.trace =
      requestsOf st.w.trace ++ (if rt.sends = true then [st.g.conversationHistory] else []) := by
  cases rt with
  | marshalError m => simp [chatLoop, RoundTrip.sends]
  | newRequestError m => simp [chatLoop, RoundTrip.sends]
  | sendError m => simpa [chatLoop, RoundTrip.sends] using hsend
  | readError m => simpa [chatLoop, RoundTrip.sends] using hsend
  | response status body parsed =>
    by_cases hs : status = 200
    · subst hs
      cases parsed with
      | error m => simpa [chatLoop, RoundTrip.sends] using hsend
      | ok resp =>
        by_cases hne : resp.Candidates = []
        · simpa [chatLoop, RoundTrip.sends, hne] using hsend
        · rw [chatLoop_response env url gts st body resp [] hne]
          obtain ⟨_, evs1, _, _, htr1, hrq1, _⟩ :=
            processCandidates_effect env resp.Candidates (sendRequest url gts st)
          rcases hpc : processCandidates env (sendRequest url gts st) resp.Candidates
            with ⟨st2, fl⟩
          rw [hpc] at htr1
          simp only at htr1
          have hst2 : requestsOf st2.w.trace =
              requestsOf st.w.trace ++ [st.g.conversationHistory] := by
            rw [htr1, requestsOf_append, hrq1, hsend]
            simp
          cases fl with
          | returned e => simpa [RoundTrip.sends] using hst2
          | next => simpa [chatLoop, RoundTrip.sends] using hst2
    · rw [chatLoop_error_status env url gts st status body parsed [] hs]
      simpa [RoundTrip.sends] using hsend

/-- C25: after the reply to a request, `Chat` stands at the top of the loop again if and only
if the reply is a response with status 200 that parsed, with at least one candidate, each
candidate having zero parts or having only parts that are a non-empty text or a function call
together with the finish reason `STOP`; then a further request is issued: whatever round trip
comes next that reaches the HTTP client, the first event after those of this reply is a request
carrying the history this reply left. In every other case `Chat` has returned after the reply:
no later reply of the script is used, so no further request is issued. In both cases the
requests of the run up to and through this reply are those made before it and, when this round
trip reached the HTTP client, the one request of this round. -/
theorem Chat_requests_again_iff (env : Env) (st : State) (messages : List Message)
    (pre : List RoundTrip) (s : State) (rt : RoundTrip)
    (hreach : Chat env st messages pre = (s, .awaitingReply)) :
    ((Chat env st messages (pre ++ [rt])).2 = .awaitingReply ↔ rt.continues) ∧
    (¬ rt.continues → ∃ e, (Chat env st messages (pre ++ [rt])).2 = .returned e) ∧
    (rt.continues → ∀ (rt2 : RoundTrip) (rest : List RoundTrip), rt2.sends = true →
      ∃ evs : List Event,
        (Chat env st messages (pre ++ rt :: rt2 :: rest)).1.w.trace =
          (Chat env st messages (pre ++ [rt])).1.w.trace ++
            Event.request (chatURL st.g)
              (requestPayload (Chat env st messages (pre ++ [rt])).1.g.conversationHistory
                (geminiTools env.Tools)) :: evs) ∧
    (¬ rt.continues → ∀ rest : List RoundTrip,
      Chat env st messages (pre ++ rt :: rest) = Chat env st messages (pre ++ [rt])) ∧
    requestsOf (Chat env st messages (pre ++ [rt])).1.w.trace =
      requestsOf s.w.trace ++ (if rt.sends = true then [s.g.conversationHistory] else []) := by
  obtain ⟨hiff, hret⟩ := Chat_outcome_after_reply env st messages pre s rt hreach
  refine ⟨hiff, hret, ?_, ?_, ?_⟩
  · intro hc rt2 rest hsends
    have haw := hiff.mpr hc
    have hreach2 : Chat env st messages (pre ++ [rt]) =
        ((Chat env st messages (pre ++ [rt])).1, .awaitingReply) := by
      rw [← haw]
    have happ : pre ++ rt :: rt2 :: rest = (pre ++ [rt]) ++ rt2 :: rest := by simp
    rw [happ, Chat_append env st messages (pre ++ [rt]) (rt2 :: rest) _ hreach2]
    exact chatLoop_first_request env _ _ _ rt2 rest hsends
  · intro hnc rest
    obtain ⟨e, he⟩ := hret hnc
    rw [Chat_append env st messages pre _ s hreach] at he ⊢
    rw [Chat_append env st messages pre _ s hreach]
    exact chatLoop_cut env _ _ s rt rest (by rw [he]; simp)
  · rw [Chat_append env st messages pre _ s hreach]
    have hsend : requestsOf (sendRequest (chatURL st.g) (geminiTools env.Tools) s).w.trace =
        requestsOf s.w.trace ++ [s.g.conversationHistory] := by
      show requestsOf (s.w.trace ++ [Event.request (chatURL st.g)
        (requestPayload s.g.conversationHistory (geminiTools env.Tools))]) = _
      rw [requestsOf_append]
      rfl
    exact chatLoop_single_requests env _ _ s rt hsend

/-- Instance of C25: after a text turn with `STOP` the loop goes on and sends a request that
carries the text turn. -/
theorem Chat_requests_again_iff_witness :
    Chat sampleEnv sampleState [⟨"user", "hi"⟩] [] = (sampleReached, .awaitingReply) ∧
    (Chat sampleEnv sampleState [⟨"user", "hi"⟩]
      ([] ++ [.response 200 "" (.ok ⟨[⟨⟨"model", [⟨"hello", none, none⟩]⟩, "STOP"⟩]⟩)])).2 =
      .awaitingReply ∧
    (∃ evs : List Event,
      (Chat sampleEnv sampleState [⟨"user", "hi"⟩]
        ([] ++ .response 200 "" (.ok ⟨[⟨⟨"model", [⟨"hello", none, none⟩]⟩, "STOP"⟩]⟩) ::
          .sendError "connection refused" :: [])).1.w.trace =
        (Chat sampleEnv sampleState [⟨"user", "hi"⟩]
          ([] ++ [.response 200 "" (.ok ⟨[⟨⟨"model", [⟨"hello", none, none⟩]⟩, "STOP"⟩]⟩)])
          ).1.w.trace ++
          Event.request (chatURL sampleState.g)
            (requestPayload (Chat sampleEnv sampleState [⟨"user", "hi"⟩]
              ([] ++ [.response 200 "" (.ok ⟨[⟨⟨"model", [⟨"hello", none, none⟩]⟩, "STOP"⟩]⟩)])
              ).1.g.conversationHistory (geminiTools sampleEnv.Tools)) :: evs) ∧
    requestsOf (Chat sampleEnv sampleState [⟨"user", "hi"⟩]
      [.response 200 "" (.ok ⟨[⟨⟨"model", [⟨"hello", none, none⟩]⟩, "STOP"⟩]⟩),
       .sendError "connection refused"]).1.w.trace =
      [[⟨"user", [⟨"hi", none, none⟩]⟩],
       [⟨"user", [⟨"hi", none, none⟩]⟩, ⟨"model", [⟨"hello", none, none⟩]⟩]] :=
  ⟨by decide,
    (Chat_requests_again_iff sampleEnv sampleState [⟨"user", "hi"⟩] [] sampleReached
      (.response 200 "" (.ok ⟨[⟨⟨"model", [⟨"hello", none, none⟩]⟩, "STOP"⟩]⟩))
      (by decide)).1.mpr (by simp [RoundTrip.continues, Candidate.continues]),
    (Chat_requests_again_iff sampleEnv sampleState [⟨"user", "hi"⟩] [] sampleReached
      (.response 200 "" (.ok ⟨[⟨⟨"model", [⟨"hello", none, none⟩]⟩, "STOP"⟩]⟩))
      (by decide)).2.2.1 (by simp [RoundTrip.continues, Candidate.continues])
      (.sendError "connection refused") [] rfl,
    by decide⟩

end llm

/-! ## The command lines of the tools and the registry -/

namespace tools

theorem addOption_eq (cmd : String) (args : GoMap) (key flag : String) :
    addOption cmd args key flag = cmd ++ optionText args key flag := by
  unfold addOption optionText stringArg
  cases hg : GoMap.get args key with
  | none => simp
  | some v =>
    cases v with
    | str s => by_cases hs : s = "" <;> simp [hs, String.append_assoc]
    | null => simp
    | bool b => simp
    | num k => simp
    | composite j => simp

theorem stringArg_of_get (args : GoMap) (key c : String)
    (h : GoMap.get args key = some (.str c)) : stringArg args key = some c := by
  simp [stringArg, h]

theorem stringArg_none_of_get (args : GoMap) (key : String)
    (h : ∀ s, GoMap.get args key ≠ some (.str s)) : stringArg args key = none := by
  unfold stringArg
  cases hg : GoMap.get args key with
  | none => rfl
  | some v =>
    cases v with
    | str s => exact absurd hg (h s)
    | null => rfl
    | bool b => rfl
    | num k => rfl
    | composite j => rfl

/-- C26: for an args map whose `command` is the string `c`, the command line of `kubectl` is
`kubectl`, then ` --context=V`, ` --namespace=V` and ` --output=V`, in this order, for each of
the options `context`, `namespace`, `output` that is a non-empty string `V` (an option that is
absent, empty or not a string adds nothing), then a blank and `c`; `helm` and `az` build theirs
the same way with `--kube-context` from `kubecontext`, `--namespace`, `--output`, and with
`--subscription`, `--resource-group` from `resource_group`, `--output`. Each tool runs that
line and no other: its result depends on the shell through that line alone, and the output of
the line is what it returns. -/
theorem Execute_command_lines (shell : Shell) (n : Nat) (args : GoMap) (c : String)
    (hcmd : GoMap.get args "command" = some (.str c)) :
    kubectlCmd args c =
      "kubectl" ++ optionText args "context" " --context=" ++
        optionText args "namespace" " --namespace=" ++
        optionText args "output" " --output=" ++ " " ++ c ∧
    helmCmd args c =
      "helm" ++ optionText args "kubecontext" " --kube-context=" ++
        optionText args "namespace" " --namespace=" ++
        optionText args "output" " --output=" ++ " " ++ c ∧
    azCmd args c =
      "az" ++ optionText args "subscription" " --subscription=" ++
        optionText args "resource_group" " --resource-group=" ++
        optionText args "output" " --output=" ++ " " ++ c ∧
    (∀ shell2 : Shell, shell2 n (kubectlCmd args c) = shell n (kubectlCmd args c) →
      ExecuteKubectl shell2 n args = ExecuteKubectl shell n args) ∧
    (∀ shell2 : Shell, shell2 n (helmCmd args c) = shell n (helmCmd args c) →
      ExecuteHelm shell2 n args = ExecuteHelm shell n args) ∧
    (∀ shell2 : Shell, shell2 n (azCmd args c) = shell n (azCmd args c) →
      ExecuteAz shell2 n args = ExecuteAz shell n args) ∧
    (∀ o : String, shell n (kubectlCmd args c) = ⟨o, none⟩ →
      ExecuteKubectl shell n args = ⟨some [("output", .str o), ("exit_code", .num 0)], none⟩) ∧
    (∀ o : String, shell n (helmCmd args c) = ⟨o, none⟩ →
      ExecuteHelm shell n args = ⟨some [("output", .str o), ("exit_code", .num 0)], none⟩) ∧
    (∀ o : String, shell n (azCmd args c) = ⟨o, none⟩ →
      ExecuteAz shell n args = ⟨some [("output", .str o), ("exit_code", .num 0)], none⟩) := by
  have hs := stringArg_of_get args "command" c hcmd
  refine ⟨?_, ?_, ?_, ?_, ?_, ?_, ?_, ?_, ?_⟩
  · simp only [kubectlCmd, addOption_eq]
  · simp only [helmCmd, addOption_eq]
  · simp only [azCmd, addOption_eq]
  · intro shell2 h
    simp [ExecuteKubectl, hs, h]
  · intro shell2 h
    simp [ExecuteHelm, hs, h]
  · intro shell2 h
    simp [ExecuteAz, hs, h]
  · intro o h
    simp [ExecuteKubectl, hs, h, outputResult]
  · intro o h
    simp [ExecuteHelm, hs, h, outputResult]
  · intro o h
    simp [ExecuteAz, hs, h, outputResult]

/-- Instance of C26: a namespace, an empty context and an output that is not a string. -/
theorem Execute_command_lines_witness :
    GoMap.get (some [("command", .str "get pods"), ("namespace", .str "kube-system"),
      ("context", .str ""), ("output", .num 3)]) "command" = some (.str "get pods") ∧
    kubectlCmd (some [("command", .str "get pods"), ("namespace", .str "kube-system"),
      ("context", .str ""), ("output", .num 3)]) "get pods" =
      "kubectl --namespace=kube-system get pods" ∧
    kubectlCmd (some [("command", .str "get pods"), ("namespace", .str "kube-system"),
      ("context", .str ""), ("output", .num 3)]) "get pods" =
      "kubectl" ++ optionText (some [("command", .str "get pods"),
          ("namespace", .str "kube-system"), ("context", .str ""), ("output", .num 3)])
          "context" " --context=" ++
        optionText (some [("command", .str "get pods"),
          ("namespace", .str "kube-system"), ("context", .str ""), ("output", .num 3)])
          "namespace" " --namespace=" ++
        optionText (some [("command", .str "get pods"),
          ("namespace", .str "kube-system"), ("context", .str ""), ("output", .num 3)])
          "output" " --output=" ++ " " ++ "get pods" :=
  ⟨by decide, by decide,
    (Execute_command_lines sampleShell 0 (some [("command", .str "get pods"),
      ("namespace", .str "kube-system"), ("context", .str ""), ("output", .num 3)]) "get pods"
      (by decide)).1⟩

theorem failed_ne_missing (rest : String) :
    "failed to execute " ++ rest ≠ "missing or invalid 'command' argument" := by
  intro h
  have h1 := congrArg String.data h
  simp only [String.data_append] at h1
  simp at h1

/-- C27: for each of the four tools: when `args["command"]` is absent or is not a string, the
call returns a nil result and the error "missing or invalid 'command' argument" whatever the
shell would do, so no process is run; when it is a string, the empty one included, the call
does not return that pair, and the command line is run: the output of the shell is returned. -/
theorem Execute_missing_command (n : Nat) (args : GoMap) :
    ((∀ s, GoMap.get args "command" ≠ some (.str s)) → ∀ shell : Shell,
      ExecuteBash shell n args = ⟨none, some ⟨"missing or invalid 'command' argument", none⟩⟩ ∧
      ExecuteKubectl shell n args =
        ⟨none, some ⟨"missing or invalid 'command' argument", none⟩⟩ ∧
      ExecuteHelm shell n args = ⟨none, some ⟨"missing or invalid 'command' argument", none⟩⟩ ∧
      ExecuteAz shell n args = ⟨none, some ⟨"missing or invalid 'command' argument", none⟩⟩) ∧
    (∀ c, GoMap.get args "command" = some (.str c) → ∀ shell : Shell,
      ExecuteBash shell n args ≠ ⟨none, some ⟨"missing or invalid 'command' argument", none⟩⟩ ∧
      ExecuteKubectl shell n args ≠
        ⟨none, some ⟨"missing or invalid 'command' argument", none⟩⟩ ∧
      ExecuteHelm shell n args ≠ ⟨none, some ⟨"missing or invalid 'command' argument", none⟩⟩ ∧
      ExecuteAz shell n args ≠ ⟨none, some ⟨"missing or invalid 'command' argument", none⟩⟩ ∧
      (∀ o, shell n c = ⟨o, none⟩ →
        ExecuteBash shell n args = ⟨some [("output", .str o), ("exit_code", .num 0)], none⟩) ∧
      (∀ o, shell n (kubectlCmd args c) = ⟨o, none⟩ →
        ExecuteKubectl shell n args =
          ⟨some [("output", .str o), ("exit_code", .num 0)], none⟩) ∧
      (∀ o, shell n (helmCmd args c) = ⟨o, none⟩ →
        ExecuteHelm shell n args = ⟨some [("output", .str o), ("exit_code", .num 0)], none⟩) ∧
      (∀ o, shell n (azCmd args c) = ⟨o, none⟩ →
        ExecuteAz shell n args = ⟨some [("output", .str o), ("exit_code", .num 0)], none⟩)) := by
  constructor
  · intro h shell
    have hs := stringArg_none_of_get args "command" h
    simp [ExecuteBash, ExecuteKubectl, ExecuteHelm, ExecuteAz, hs]
  · intro c hc shell
    have hs := stringArg_of_get args "command" c hc
    refine ⟨?_, ?_, ?_, ?_, ?_, ?_, ?_, ?_⟩
    · simp only [ExecuteBash, hs]
      cases hr : (shell n c).err with
      | none => simp [outputResult]
      | some e =>
        cases e with
        | exitError code => simp [outputResult]
        | other m =>
          intro heq
          injection heq with _ h2
          injection h2 with h3
          injection h3 with h4
          exact failed_ne_missing ("command: " ++ m) (by simpa [String.append_assoc] using h4)
    · simp only [ExecuteKubectl, hs]
      cases hr : (shell n (kubectlCmd args c)).err with
      | none => simp [outputResult]
      | some e =>
        cases e with
        | exitError code => simp [outputResult]
        | other m =>
          intro heq
          injection heq with _ h2
          injection h2 with h3
          injection h3 with h4
          exact failed_ne_missing ("kubectl command: " ++ m)
            (by simpa [String.append_assoc] using h4)
    · simp only [ExecuteHelm, hs]
      cases hr : (shell n (helmCmd args c)).err with
      | none => simp [outputResult]
      | some e => cases e <;> simp [outputResult]
    · simp only [ExecuteAz, hs]
      cases hr : (shell n (azCmd args c)).err with
      | none => simp [outputResult]
      | some e => cases e <;> simp [outputResult]
    · intro o h
      simp [ExecuteBash, hs, h, outputResult]
    · intro o h
      simp [ExecuteKubectl, hs, h, outputResult]
    · intro o h
      simp [ExecuteHelm, hs, h, outputResult]
    · intro o h
      simp [ExecuteAz, hs, h, outputResult]

/-- Instance of C27: a `command` that is a number is refused, the empty command is run. -/
theorem Execute_missing_command_witness :
    ExecuteBash sampleShell 0 (some [("command", .num 1)]) =
      ⟨none, some ⟨"missing or invalid 'command' argument", none⟩⟩ ∧
    ExecuteBash sampleShell 0 (some [("command", .str "")]) =
      ⟨some [("output", .str ""), ("exit_code", .num 0)], none⟩ :=
  ⟨((Execute_missing_command 0 (some [("command", .num 1)])).1
      (by intro s h; simp [GoMap.get, List.lookup] at h) sampleShell).1,
    ((Execute_missing_command 0 (some [("command", .str "")])).2 "" (by decide)
      sampleShell).2.2.2.2.1 "" (by decide)⟩

/-- C28: the names of the declarations in `tools.Tools` are pairwise distinct and are the keys
of `tools.AvailableTools`, namely `bash`, `kubectl`, `helm` and `az`; so a name is found in the
registry exactly when it is the name of a declaration. -/
theorem registry_consistent (shell : Shell) :
    (Tools.map (fun t => t.Name)).Nodup ∧
    Tools.map (fun t => t.Name) = ["bash", "kubectl", "helm", "az"] ∧
    (AvailableTools shell).map (fun kv => kv.1) = ["bash", "kubectl", "helm", "az"] ∧
    (∀ name : String,
      ((AvailableTools shell).lookup name).isSome = true ↔
        name ∈ Tools.map (fun t => t.Name)) := by
  refine ⟨by decide, by decide, rfl, ?_⟩
  intro name
  have hnames : Tools.map (fun t => t.Name) = ["bash", "kubectl", "helm", "az"] := by decide
  rw [hnames]
  by_cases h1 : name = "bash"
  · subst h1; simp [AvailableTools, List.lookup]
  · by_cases h2 : name = "kubectl"
    · subst h2; simp [AvailableTools, List.lookup]
    · by_cases h3 : name = "helm"
      · subst h3; simp [AvailableTools, List.lookup]
      · by_cases h4 : name = "az"
        · subst h4; simp [AvailableTools, List.lookup]
        · have b1 : (name == "bash") = false := by simp [h1]
          have b2 : (name == "kubectl") = false := by simp [h2]
          have b3 : (name == "helm") = false := by simp [h3]
          have b4 : (name == "az") = false := by simp [h4]
          simp [AvailableTools, List.lookup, h1, h2, h3, h4, b1, b2, b3, b4]

end tools
